/-
Verification of the LAPACK-Sample numerical library (BLAS/LAPACK layers,
symmetric tridiagonal eigensolver pipeline) against its design specification.

The C++ sources are shallowly embedded in Lean 4:
  * caller-owned buffers (raw pointers) become total functions `ℤ → α`
    together with explicit pointer shifts and functional updates;
  * the scalar template parameter `T_Scalar` becomes a `LinearOrderedField`
    carrier `α`; the floating-point-specific operations that a field does
    not provide (`Sqrt`, `Hypot`, `IsUndefined`, `minValue`, `maxValue`,
    `epsilon`, `quiet_NaN`) are collected in a `ScalarOps α` record that
    mirrors the numeric-trait surface of `Common.h`; the `Float64`
    instantiation in exact (real) arithmetic is `realOps : ScalarOps ℝ`;
  * bounded C++ loops become structurally recursive functions; unbounded
    `do/while` loops (whose termination in the source relies on
    floating-point dynamics) take an explicit fuel argument, falling back
    to a normal loop exit when the fuel runs out;
  * `throw BadArgument{...}` becomes `Except.error` of a `BadArgument`
    record, propagated exactly where C++ exceptions would propagate;
  * `Size`/`Index`/`Stride` become `ℕ`/`ℤ`/`ℤ` (the claims under study
    never depend on 64-bit wraparound of size arithmetic).
-/
import Mathlib

namespace LAPACKSample

/-! ## Buffers and pointer arithmetic -/

/-- A caller-owned buffer viewed through a raw pointer: a total function
from (possibly negative) element offsets to scalar values. -/
abbrev Vec (α : Type) : Type := ℤ → α

/-- Store `v` at offset `i` (the C++ assignment `x[i] = v`). -/
def wr {α : Type} (x : Vec α) (i : ℤ) (v : α) : Vec α :=
  fun j => if j = i then v else x j

/-- Pointer arithmetic `x + k`. -/
def shift {α : Type} (x : Vec α) (k : ℤ) : Vec α :=
  fun i => x (i + k)

@[simp] theorem wr_same {α : Type} (x : Vec α) (i : ℤ) (v : α) : wr x i v i = v := by
  simp [wr]

@[simp] theorem wr_other {α : Type} (x : Vec α) (i j : ℤ) (v : α) (h : j ≠ i) :
    wr x i v j = x j := by
  simp [wr, h]

@[simp] theorem shift_apply {α : Type} (x : Vec α) (k i : ℤ) : shift x k i = x (i + k) := rfl

theorem wr_self {α : Type} (x : Vec α) (i : ℤ) : wr x i (x i) = x := by
  funext j
  by_cases h : j = i <;> simp [wr, h]

/-! ## Enumerations from `IND.Math.BLAS.h` / `IND.Math.LAPACK.h` -/

/-- `enum class Half { Upper = 1, Lower = 2, Both = 3 }` -/
inductive Half | upper | lower | both
deriving DecidableEq

/-- `enum class Side { Left = 0, Right }` -/
inductive Side | left | right
deriving DecidableEq

/-- `enum class Trnsp { No = 0, Yes, Conj }` -/
inductive Trnsp | no | yes | conj
deriving DecidableEq

/-- `enum class Diag { IsUnit, NotUnit }` -/
inductive Diag | isUnit | notUnit
deriving DecidableEq

/-- `enum class Pivot { Btm, Top, Var }` -/
inductive Pivot | btm | top | var
deriving DecidableEq

/-- `enum class Direct { Fwd, Bwd }` -/
inductive Direct | fwd | bwd
deriving DecidableEq

/-- `enum class NormType { Max, One, Inf, Frob }` -/
inductive NormType | max | one | inf | frob
deriving DecidableEq

/-- The `BadArgument` exception class of `IND.Math.BLAS.h`: a message and a
1-based offending-argument index. -/
structure BadArgument where
  message : String
  arg : ℤ
deriving DecidableEq

/-! ## Memory layout strategies (`Flat`, `ColMajor`, `RowMajor`) -/

/-- The two matrix addressing strategies of `IND.Math.BLAS.h`.  `Flat`
(the vector-only strategy) is subsumed: all strategies address vectors as
`x[i*s]`. -/
inductive MatLyt | colMajor | rowMajor
deriving DecidableEq

namespace MatLyt

/-- `MatRef`'s flat offset of logical element `(i,j)`: `i + j*ld` for
column-major storage, `i*ld + j` for row-major storage. -/
def matIdx : MatLyt → ℤ → ℤ → ℤ → ℤ
  | colMajor, i, j, ld => i + j * ld
  | rowMajor, i, j, ld => i * ld + j

/-- `Lyt::ColStride`. -/
def colStride : MatLyt → ℤ → ℤ
  | colMajor, _ => 1
  | rowMajor, ld => ld

/-- `Lyt::RowStride`. -/
def rowStride : MatLyt → ℤ → ℤ
  | colMajor, ld => ld
  | rowMajor, _ => 1

/-- `Lyt::DiagStride`. -/
def diagStride : MatLyt → ℤ → ℤ
  | _, ld => ld + 1

end MatLyt

/-- `Lyt::MatRef( A_, i, j, A_ld )`. -/
def matRef {α : Type} (lyt : MatLyt) (A : Vec α) (i j ld : ℤ) : α :=
  A (lyt.matIdx i j ld)

/-- `Lyt::BlkPtr( A_, i, j, A_ld )` (also `RowPtr`/`ColPtr`/`DiagPtr`,
which all coincide with `BlkPtr`). -/
def blkPtr {α : Type} (lyt : MatLyt) (A : Vec α) (i j ld : ℤ) : Vec α :=
  shift A (lyt.matIdx i j ld)

/-- Write through `Lyt::MatRef`. -/
def matWr {α : Type} (lyt : MatLyt) (A : Vec α) (i j ld : ℤ) (v : α) : Vec α :=
  wr A (lyt.matIdx i j ld) v

/-! ## Scalar operations (`Common.h`)

The library is a template over a non-complex scalar type.  Pure field /
order operations are taken from the `LinearOrderedField` structure; the
remaining numeric-trait operations are bundled here. -/

/-- The numeric-trait operations of `Common.h` that a `LinearOrderedField`
does not provide.  For `Float64` in exact arithmetic these are interpreted
by `realOps` below. -/
structure ScalarOps (α : Type) where
  /-- `Sqrt` (`std::sqrt`). -/
  sqrtFn : α → α
  /-- `Hypot` (`std::hypot`). -/
  hypotFn : α → α → α
  /-- `IsUndefined` (`std::isnan`). -/
  isUndefined : α → Bool
  /-- `minValue< T_Scalar >` (`std::numeric_limits::min`). -/
  safmin : α
  /-- `maxValue< T_Scalar >` (`std::numeric_limits::max`). -/
  safmax : α
  /-- `std::numeric_limits::epsilon` (the `Config::zeroTol` default). -/
  epsilon : α
  /-- `undefined< T_Scalar >` (`std::numeric_limits::quiet_NaN`). -/
  undefinedVal : α

/-- The exact-arithmetic (real-number) interpretation of the `Float64`
numeric traits: `Sqrt`/`Hypot` are the real square root and
`√(x² + y²)`; no real number is a NaN, so `IsUndefined` is constantly
false; `minValue`/`maxValue`/`epsilon` are the IEEE-754 binary64
constants as exact rationals.  `quiet_NaN` has no exact-arithmetic
counterpart; the model exposes it as an arbitrary distinguished constant
whose value the claims never depend on. -/
noncomputable def realOps : ScalarOps ℝ where
  sqrtFn := Real.sqrt
  hypotFn := fun a b => Real.sqrt (a ^ 2 + b ^ 2)
  isUndefined := fun _ => false
  safmin := (2 : ℝ) ^ (-(1022 : ℤ))
  safmax := ((2 : ℝ) ^ (53 : ℕ) - 1) * (2 : ℝ) ^ (971 : ℤ)
  epsilon := (2 : ℝ) ^ (-(52 : ℤ))
  undefinedVal := 0

/-- `CopySign( to, from )` (`std::copysign`): the magnitude of `to` with
the sign of `from`.  Exact arithmetic has no negative zero, so `from = 0`
yields `|to|`, matching `copysign` on `+0.0`. -/
def copySignC {α : Type} [LinearOrderedField α] (t f : α) : α :=
  if f < 0 then -|t| else |t|

/-- `Sqr( x )`. -/
def sqrC {α : Type} [LinearOrderedField α] (x : α) : α := x * x

/-- `Inv( x )`. -/
def invC {α : Type} [LinearOrderedField α] (x : α) : α := 1 / x

/-- `Conj( x )` for non-complex scalars (the identity, from `Common.h`). -/
def conjC {α : Type} (x : α) : α := x

/-- `Clamp( value, lo, hi )` from `Common.h`:
`(value > hi)? hi : (value < lo)? lo : value`. -/
def clampC {α : Type} [LinearOrderedField α] (value lo hi : α) : α :=
  if value > hi then hi else if value < lo then lo else value

/-- `IntSignOrZero( x )`. -/
def intSignOrZero {α : Type} [LinearOrderedField α] (x : α) : ℤ :=
  if x > 0 then 1 else if x < 0 then -1 else 0

/-! ## Work-size formulas

Direct transcriptions of the `..._WorkSize` functions.  `Size` is `ℕ`;
`n-1` on `Size` is C++ unsigned arithmetic, which for the `n ≥ 1`
arguments the formulas are used with agrees with `ℕ` truncated
subtraction. -/

/-- `Rfl_MatMul_WorkSize( m, n ) = n`. -/
def Rfl_MatMul_WorkSize (_m n : ℕ) : ℕ := n

/-- `Ort_From_QL_WorkSize( m, n, k ) = k`. -/
def Ort_From_QL_WorkSize (_m _n k : ℕ) : ℕ := k

/-- `Ort_From_QR_WorkSize( m, n, k ) = m`. -/
def Ort_From_QR_WorkSize (m _n _k : ℕ) : ℕ := m

/-- `Ort_From_Syt_WorkSize( n ) = n-1`. -/
def Ort_From_Syt_WorkSize (n : ℕ) : ℕ := n - 1

/-- `Syt_EigVecQR_WorkSize( n ) = 2*n`. -/
def Syt_EigVecQR_WorkSize (n : ℕ) : ℕ := 2 * n

/-! ### Claim C7 -/

/-- C7, as stated, is false: the claim asserts `Ort_From_Syt_WorkSize(n) ≥ n`
for every `n ≥ 1`, but already at `n = 1` the formula returns `0 < 1`. -/
theorem C7_worksize_counterexample :
    Ort_From_Syt_WorkSize 1 = 0 ∧ ¬ (1 ≤ Ort_From_Syt_WorkSize 1) := by
  constructor
  · rfl
  · decide

/-- C7 (amended): for every `n ≥ 1` the documented work-size formula
`Ort_From_Syt_WorkSize(n)` returns `n - 1` (not `n`), and this value is
sufficient for the delegated reconstruction: `Ort_From_Syt` hands `work`
to `Ort_From_QL`/`Ort_From_QR` on an `(n-1)×(n-1)` block with `k = n-1`
reflectors, whose own work-size formulas — and the reflector application
`Rfl_MatMul_WorkSize(n-1, n-1)` they rely on — demand at most `n - 1`
elements. -/
theorem C7_worksize_amended (n : ℕ) (_hn : 1 ≤ n) :
    Ort_From_Syt_WorkSize n = n - 1 ∧
    Ort_From_QL_WorkSize (n-1) (n-1) (n-1) ≤ Ort_From_Syt_WorkSize n ∧
    Ort_From_QR_WorkSize (n-1) (n-1) (n-1) ≤ Ort_From_Syt_WorkSize n ∧
    Rfl_MatMul_WorkSize (n-1) (n-1) ≤ Ort_From_Syt_WorkSize n := by
  refine ⟨rfl, le_refl _, le_refl _, le_refl _⟩

/-- Witness for C7 at `n = 4`. -/
theorem C7_worksize_witness :
    1 ≤ 4 ∧
    (Ort_From_Syt_WorkSize 4 = 4 - 1 ∧
     Ort_From_QL_WorkSize 3 3 3 ≤ Ort_From_Syt_WorkSize 4 ∧
     Ort_From_QR_WorkSize 3 3 3 ≤ Ort_From_Syt_WorkSize 4 ∧
     Rfl_MatMul_WorkSize 3 3 ≤ Ort_From_Syt_WorkSize 4) :=
  ⟨by decide, C7_worksize_amended 4 (by decide)⟩

/-! ## Vector primitives (`IND.Math.BLAS.Vec_X.inl`)

Each C++ `while(n--)` pointer-bumping loop is translated as a recursion
over the remaining trip count `n`, with the running logical index `k`
made explicit (element `k` of a strided vector lives at offset `k*s`). -/

/-- Loop of `Vec_Zero`: `while( n-- ){ *x = {}; x += s; }`. -/
def Vec_Zero_aux {α : Type} [LinearOrderedField α] (s : ℤ) : ℕ → ℤ → Vec α → Vec α
  | 0, _, x => x
  | n+1, k, x => Vec_Zero_aux s n (k+1) (wr x (k*s) 0)

/-- `Vec_Zero( n, x, x_s )`: `x := 0`. -/
def Vec_Zero {α : Type} [LinearOrderedField α] (n : ℕ) (x : Vec α) (s : ℤ) : Vec α :=
  Vec_Zero_aux s n 0 x

/-- Multiplication loop of `Vec_Scale`: `while( n-- ){ (*x) *= alpha; x += s; }`. -/
def Vec_Scale_aux {α : Type} [LinearOrderedField α] (alpha : α) (s : ℤ) :
    ℕ → ℤ → Vec α → Vec α
  | 0, _, x => x
  | n+1, k, x => Vec_Scale_aux alpha s n (k+1) (wr x (k*s) (x (k*s) * alpha))

/-- `Vec_Scale( n, alpha, x, x_s )`: `x := alpha*x`.  The source first
zero-fills when `IsZero(alpha)` and then (since `0` is not the unit) also
runs the multiplication loop over the zeroed data. -/
def Vec_Scale {α : Type} [LinearOrderedField α] (n : ℕ) (alpha : α) (x : Vec α) (s : ℤ) :
    Vec α :=
  let x1 := if alpha = 0 then Vec_Zero n x s else x
  if alpha = 1 then x1 else Vec_Scale_aux alpha s n 0 x1

/-- Loop of `Vec_AXPlusY`: `while( n-- ){ *y += alpha*(*x); ... }`. -/
def Vec_AXPlusY_aux {α : Type} [LinearOrderedField α] (alpha : α) (x : Vec α) (xs ys : ℤ) :
    ℕ → ℤ → Vec α → Vec α
  | 0, _, y => y
  | n+1, k, y => Vec_AXPlusY_aux alpha x xs ys n (k+1)
      (wr y (k*ys) (y (k*ys) + alpha * x (k*xs)))

/-- `Vec_AXPlusY( n, alpha, x, x_s, y, y_s )`: `y := alpha*x + y`. -/
def Vec_AXPlusY {α : Type} [LinearOrderedField α] (n : ℕ) (alpha : α)
    (x : Vec α) (xs : ℤ) (y : Vec α) (ys : ℤ) : Vec α :=
  Vec_AXPlusY_aux alpha x xs ys n 0 y

/-- `Vec_AConjXPlusY( n, alpha, x, x_s, y, y_s )`: `y := alpha*Conj(x) + y`
(`Conj` is the identity for the non-complex scalars of this library). -/
def Vec_AConjXPlusY {α : Type} [LinearOrderedField α] (n : ℕ) (alpha : α)
    (x : Vec α) (xs : ℤ) (y : Vec α) (ys : ℤ) : Vec α :=
  Vec_AXPlusY_aux alpha (fun i => conjC (x i)) xs ys n 0 y

/-! ## `Idx_LastCol` / `Idx_LastRow` (`iladc` / `iladr`) -/

/-- Inner loop of `Idx_LastCol`'s column scan:
`for( i = 0; i < m; ++i ) if( ! IsZero( A(i,j) ) ) return j` — `true` iff
the early return fires. -/
def Idx_LastCol_colHasNonzero {α : Type} [LinearOrderedField α] (lyt : MatLyt)
    (A : Vec α) (ld j : ℤ) : ℕ → ℤ → Bool
  | 0, _ => false
  | m+1, i => if matRef lyt A i j ld ≠ 0 then true
      else Idx_LastCol_colHasNonzero lyt A ld j m (i+1)

/-- Outer loop of `Idx_LastCol`: scan columns `j = n-1` down to `0`,
returning the first with a non-zero entry, else `-1`. -/
def Idx_LastCol_scan {α : Type} [LinearOrderedField α] (lyt : MatLyt)
    (m : ℕ) (A : Vec α) (ld : ℤ) : ℕ → ℤ
  | 0 => -1
  | j+1 => if Idx_LastCol_colHasNonzero lyt A ld (j : ℤ) m 0 then (j : ℤ)
      else Idx_LastCol_scan lyt m A ld j

/-- `Idx_LastCol( m, n, A_, A_ld )`: index of the last non-zero column of
the `m × n` block, or `-1` if it is all zero; with the corner quick test
of the source. -/
def Idx_LastCol {α : Type} [LinearOrderedField α] (lyt : MatLyt) (m n : ℕ)
    (A : Vec α) (ld : ℤ) : ℤ :=
  if n = 0 then (n : ℤ) - 1
  else if matRef lyt A 0 ((n:ℤ)-1) ld ≠ 0 ∨ matRef lyt A ((m:ℤ)-1) ((n:ℤ)-1) ld ≠ 0 then
    (n : ℤ) - 1
  else Idx_LastCol_scan lyt m A ld n

/-- Per-column downward scan of `Idx_LastRow`:
`while( (0.0 == A(Max(i,0),j)) && (i >= 0) ){ --i; }`, started at
`i = m-1`; the value of `i` on exit.  The trip count is bounded by the
start index plus one (`fuel`). -/
def Idx_LastRow_colScan {α : Type} [LinearOrderedField α] (lyt : MatLyt)
    (A : Vec α) (ld j : ℤ) : ℕ → ℤ → ℤ
  | 0, i => i
  | fuel+1, i =>
    if matRef lyt A (max i 0) j ld = 0 ∧ 0 ≤ i then
      Idx_LastRow_colScan lyt A ld j fuel (i-1)
    else i

/-- Column loop of `Idx_LastRow`: `row = Max( row, i )` over columns
`j = 0 .. n-1`. -/
def Idx_LastRow_scan {α : Type} [LinearOrderedField α] (lyt : MatLyt)
    (m : ℕ) (A : Vec α) (ld : ℤ) : ℕ → ℤ → ℤ → ℤ
  | 0, _, row => row
  | n+1, j, row =>
    Idx_LastRow_scan lyt m A ld n (j+1)
      (max row (Idx_LastRow_colScan lyt A ld j m ((m:ℤ)-1)))

/-- `Idx_LastRow( m, n, A_, A_ld )`: index of the last non-zero row of the
`m × n` block, or `-1`, with the corner quick test of the source. -/
def Idx_LastRow {α : Type} [LinearOrderedField α] (lyt : MatLyt) (m n : ℕ)
    (A : Vec α) (ld : ℤ) : ℤ :=
  if m = 0 then (m : ℤ) - 1
  else if matRef lyt A ((m:ℤ)-1) 0 ld ≠ 0 ∨ matRef lyt A ((m:ℤ)-1) ((n:ℤ)-1) ld ≠ 0 then
    (m : ℤ) - 1
  else Idx_LastRow_scan lyt m A ld n 0 (-1)

/-! ## `Mat_VecMul` (`dgemv`) and `Mat_Rank1Upd` (`dger`) -/

/-- Column loop of `Mat_VecMul`, `Trnsp::No` branch. -/
def Mat_VecMul_noAux {α : Type} [LinearOrderedField α] (lyt : MatLyt) (m : ℕ)
    (alpha : α) (A : Vec α) (ld : ℤ) (x : Vec α) (xs ys : ℤ) :
    ℕ → ℤ → Vec α → Vec α
  | 0, _, y => y
  | n+1, j, y =>
    let axj := alpha * x (j*xs)
    let Acol := blkPtr lyt A 0 j ld
    Mat_VecMul_noAux lyt m alpha A ld x xs ys n (j+1)
      (Vec_AXPlusY m axj Acol (lyt.colStride ld) y ys)

/-- Row loop of `Mat_VecMul`, `Trnsp::Yes` branch. -/
def Mat_VecMul_yesAux {α : Type} [LinearOrderedField α] (lyt : MatLyt) (n : ℕ)
    (alpha : α) (A : Vec α) (ld : ℤ) (x : Vec α) (xs ys : ℤ) :
    ℕ → ℤ → Vec α → Vec α
  | 0, _, y => y
  | m+1, i, y =>
    let axi := alpha * x (i*xs)
    let Arow := blkPtr lyt A i 0 ld
    Mat_VecMul_yesAux lyt n alpha A ld x xs ys m (i+1)
      (Vec_AXPlusY n axi Arow (lyt.rowStride ld) y ys)

/-- Row loop of `Mat_VecMul`, `Trnsp::Conj` branch. -/
def Mat_VecMul_conjAux {α : Type} [LinearOrderedField α] (lyt : MatLyt) (n : ℕ)
    (alpha : α) (A : Vec α) (ld : ℤ) (x : Vec α) (xs ys : ℤ) :
    ℕ → ℤ → Vec α → Vec α
  | 0, _, y => y
  | m+1, i, y =>
    let axi := alpha * x (i*xs)
    let Arow := blkPtr lyt A i 0 ld
    Mat_VecMul_conjAux lyt n alpha A ld x xs ys m (i+1)
      (Vec_AConjXPlusY n axi Arow (lyt.rowStride ld) y ys)

/-- `Mat_VecMul( A_trnsp, m, n, alpha, A_, A_ld, x_, x_s, beta, y_, y_s )`:
`y := alpha*A*x + beta*y` (or with `~A`). -/
def Mat_VecMul {α : Type} [LinearOrderedField α] (lyt : MatLyt) (trnsp : Trnsp)
    (m n : ℕ) (alpha : α) (A : Vec α) (ld : ℤ) (x : Vec α) (xs : ℤ)
    (beta : α) (y : Vec α) (ys : ℤ) : Vec α :=
  match trnsp with
  | .no =>
    let y1 := Vec_Scale m beta y ys
    if alpha = 0 then y1 else Mat_VecMul_noAux lyt m alpha A ld x xs ys n 0 y1
  | .yes =>
    let y1 := Vec_Scale n beta y ys
    if alpha = 0 then y1 else Mat_VecMul_yesAux lyt n alpha A ld x xs ys m 0 y1
  | .conj =>
    let y1 := Vec_Scale n beta y ys
    if alpha = 0 then y1 else Mat_VecMul_conjAux lyt n alpha A ld x xs ys m 0 y1

/-- Inner row loop of `Mat_Rank1Upd`: `A(i,j) += x(i)*ayj`. -/
def Mat_Rank1Upd_iAux {α : Type} [LinearOrderedField α] (lyt : MatLyt)
    (ayj : α) (x : Vec α) (xs : ℤ) (j ld : ℤ) : ℕ → ℤ → Vec α → Vec α
  | 0, _, A => A
  | m+1, i, A =>
    Mat_Rank1Upd_iAux lyt ayj x xs j ld m (i+1)
      (matWr lyt A i j ld (matRef lyt A i j ld + x (i*xs) * ayj))

/-- Column loop of `Mat_Rank1Upd`. -/
def Mat_Rank1Upd_jAux {α : Type} [LinearOrderedField α] (lyt : MatLyt) (m : ℕ)
    (alpha : α) (x : Vec α) (xs : ℤ) (y : Vec α) (ys ld : ℤ) :
    ℕ → ℤ → Vec α → Vec α
  | 0, _, A => A
  | n+1, j, A =>
    let ayj := alpha * y (j*ys)
    Mat_Rank1Upd_jAux lyt m alpha x xs y ys ld n (j+1)
      (Mat_Rank1Upd_iAux lyt ayj x xs j ld m 0 A)

/-- `Mat_Rank1Upd( m, n, alpha, x_, x_s, y_, y_s, A_, A_ld )`:
`A := alpha*x*(~y) + A`. -/
def Mat_Rank1Upd {α : Type} [LinearOrderedField α] (lyt : MatLyt) (m n : ℕ)
    (alpha : α) (x : Vec α) (xs : ℤ) (y : Vec α) (ys : ℤ)
    (A : Vec α) (ld : ℤ) : Vec α :=
  if alpha = 0 then A else Mat_Rank1Upd_jAux lyt m alpha x xs y ys ld n 0 A

/-! ## `Rfl_MatMul` (`dlarf`) -/

/-- The `lastv` trimming scan of `Rfl_MatMul`:
`while( (lastv > 0) && IsZero( v[i] ) ){ --lastv; i -= V_cs; }`;
returns the final `(lastv, i)`.  The trip count is bounded by the initial
`lastv` (the fuel). -/
def Rfl_MatMul_scanV {α : Type} [LinearOrderedField α] (v : Vec α) (vcs : ℤ) :
    ℕ → ℤ → ℤ → ℤ × ℤ
  | 0, lastv, i => (lastv, i)
  | fuel+1, lastv, i =>
    if 0 < lastv ∧ v i = 0 then Rfl_MatMul_scanV v vcs fuel (lastv-1) (i-vcs)
    else (lastv, i)

/-- `Rfl_MatMul( side, m, n, v, V_cs, tau, C_, C_ld, work )`: apply the
elementary reflector `H = I - tau*v*(~v)` to the `m × n` block `C` from
the given side, with the `lastv`/`lastc` trimming scans of the source.
Returns the updated `(C, work)` pair. -/
def Rfl_MatMul {α : Type} [LinearOrderedField α] (lyt : MatLyt) (side : Side)
    (m n : ℕ) (v : Vec α) (vcs : ℤ) (tau : α) (C : Vec α) (ld : ℤ)
    (work : Vec α) : Vec α × Vec α :=
  if tau = 0 then (C, work)
  else
    let lastv0 : ℤ := match side with | .left => (m : ℤ) | .right => (n : ℤ)
    let i0 : ℤ := if 0 < vcs then (1 + (lastv0 - 1) * vcs) - 1 else 0
    let lastv := (Rfl_MatMul_scanV v vcs lastv0.toNat lastv0 i0).1
    let lastc : ℤ := match side with
      | .left => Idx_LastCol lyt lastv.toNat n C ld + 1
      | .right => Idx_LastRow lyt m lastv.toNat C ld + 1
    match side with
    | .left =>
      if 0 < lastv then
        let work1 := Mat_VecMul lyt .yes lastv.toNat lastc.toNat 1 C ld v vcs 0 work 1
        (Mat_Rank1Upd lyt lastv.toNat lastc.toNat (-tau) v vcs work1 1 C ld, work1)
      else (C, work)
    | .right =>
      if 0 < lastv then
        let work1 := Mat_VecMul lyt .no lastc.toNat lastv.toNat 1 C ld v vcs 0 work 1
        (Mat_Rank1Upd lyt lastc.toNat lastv.toNat (-tau) work1 1 v vcs C ld, work1)
      else (C, work)

/-! ### Claim C3 -/

/-- C3: `Rfl_MatMul` called with `tau = 0` is a guaranteed no-op: for
every layout, side, dimensions, reflector vector, stride, matrix `C` and
scratch buffer, every element of `C` and of `work` is left unchanged. -/
theorem C3_rflmatmul_tau_zero_noop {α : Type} [LinearOrderedField α]
    (lyt : MatLyt) (side : Side) (m n : ℕ) (v : Vec α) (vcs : ℤ)
    (C : Vec α) (ld : ℤ) (work : Vec α) :
    Rfl_MatMul lyt side m n v vcs 0 C ld work = (C, work) := by
  simp [Rfl_MatMul]

/-! ### Claim C4 -/

/-- The spec's untrimmed full-block rank-1 update, per its own words:
`C := C - tau·v·(~v·C)` from the left or `C := C - tau·(C·v)·~v` from the
right, over the full `m × n` block, with `v`'s logical element `k`
sampled at `v(k·V_cs)` exactly as the BLAS kernels sample it.  The value
of entry `(i, j)` after the update. -/
def Rfl_MatMul_fullUpdate {α : Type} [LinearOrderedField α] (lyt : MatLyt)
    (side : Side) (m n : ℕ) (v : Vec α) (vcs : ℤ) (tau : α) (C : Vec α)
    (ld : ℤ) (i j : ℤ) : α :=
  match side with
  | .left => matRef lyt C i j ld -
      tau * v (i * vcs) *
        ∑ k in Finset.range m, v ((k : ℤ) * vcs) * matRef lyt C (k : ℤ) j ld
  | .right => matRef lyt C i j ld -
      tau * (∑ k in Finset.range n, matRef lyt C i (k : ℤ) ld * v ((k : ℤ) * vcs)) *
        v (j * vcs)

/-- C4, as stated, is false on the code: with a negative reflector
stride the `lastv` trimming changes the result.  The kernels
(`Mat_VecMul`, `Mat_Rank1Upd`) sample logical element `k` of `v` at
`v[k*V_cs]` (`Lyt::VecRef` applies no negative-stride base offset), but
the trimming scan — whose `if( V_cs > 0 )` start-index initialization is
taken from `dlarf`, which relies on the BLAS negative-increment
convention — starts at `i = 0` and walks `i -= V_cs`, i.e. it inspects
`v[0], v[|V_cs|], …` while the kernels consume `v[0], v[-|V_cs|], …`.
Concretely: `side = Left`, `m = 2`, `n = 1`, `V_cs = -1`, `tau = 1`,
`v[-1] = 1` with `v[0] = v[1] = 0`, column-major `C` with `C(1,0) = 1`
otherwise zero, `ld = 2`.  The scan sees `v[0] = v[1] = 0`, trims
`lastv` to `0` and returns `C` unchanged (`C(1,0) = 1`), while the
untrimmed full-block update `C := C - tau·v·(~v·C)` of the spec zeroes
that entry. -/
theorem C4_trimming_changes_result :
    matRef .colMajor
        (Rfl_MatMul .colMajor .left 2 1 (fun p : ℤ => if p = -1 then (1:ℚ) else 0)
          (-1) 1 (fun p : ℤ => if p = 1 then (1:ℚ) else 0) 2 (fun _ => 0)).1
        1 0 2 = 1 ∧
      Rfl_MatMul_fullUpdate .colMajor .left 2 1 (fun p : ℤ => if p = -1 then (1:ℚ) else 0)
          (-1) 1 (fun p : ℤ => if p = 1 then (1:ℚ) else 0) 2 1 0 = 0 := by
  constructor
  · decide
  · norm_num [Rfl_MatMul_fullUpdate, matRef, MatLyt.matIdx, Finset.sum_range_succ]


/-! ## `Vec_Rescl` (safe rescale) -/

/-- The `do { ... } while( !done )` loop of `Vec_Rescl`.  `isExact` is
`false` for every scalar of this library (it is never specialized), so
only the non-exact branch is live.  The loop's termination in the source
relies on floating-point magnitude dynamics; the model bounds it with
`fuel`, exiting the loop when the fuel runs out. -/
def Vec_Rescl_loop {α : Type} [LinearOrderedField α] (ops : ScalarOps α)
    (n : ℕ) (s : ℤ) : ℕ → α → α → Vec α → Vec α
  | 0, _, _, x => x
  | fuel+1, cfromc, ctoc, x =>
    let smlnum := ops.safmin
    let bignum := invC smlnum
    let cfrom1 := cfromc * smlnum
    if cfrom1 = cfromc then
      -- CFROMC is an inf: multiply by ctoc/cfromc and finish.
      Vec_Scale n (ctoc / cfromc) x s
    else
      let cto1 := ctoc / bignum
      if cto1 = ctoc then
        -- CTOC is 0 or an inf: ctoc itself is the correct factor.
        Vec_Scale n ctoc x s
      else if |cfrom1| > |ctoc| ∧ ctoc ≠ 0 then
        Vec_Rescl_loop ops n s fuel cfrom1 ctoc (Vec_Scale n smlnum x s)
      else if |cto1| > |cfromc| then
        Vec_Rescl_loop ops n s fuel cfromc cto1 (Vec_Scale n bignum x s)
      else
        Vec_Scale n (ctoc / cfromc) x s

/-- `Vec_Rescl( cfrom, cto, n, x, x_s )`: multiply `x` by `cto/cfrom`
without intermediate over/underflow, after validating the arguments
(`BadArgument` with 1-based index 1 for a zero or undefined `cfrom`,
index 2 for an undefined `cto`). -/
def Vec_Rescl {α : Type} [LinearOrderedField α] (ops : ScalarOps α) (fuel : ℕ)
    (cfrom cto : α) (n : ℕ) (x : Vec α) (s : ℤ) : Except BadArgument (Vec α) :=
  if cfrom = 0 ∨ ops.isUndefined cfrom then .error ⟨"Vec_Rescl", 1⟩
  else if ops.isUndefined cto then .error ⟨"Vec_Rescl", 2⟩
  else if n = 0 then .ok x
  else if cfrom = cto then .ok x
  else .ok (Vec_Rescl_loop ops n s fuel cfrom cto x)

/-! ### Claim C8 -/

/-- C8: `Vec_Rescl` raises the bad-argument error iff a precondition is
violated: `BadArgument` with 1-based argument index 1 exactly when `cfrom`
is zero or not-a-number, index 2 exactly when `cfrom` is valid and `cto`
is not-a-number, and otherwise it completes without raising. -/
theorem C8_vecrescl_validation {α : Type} [LinearOrderedField α] (ops : ScalarOps α)
    (fuel : ℕ) (cfrom cto : α) (n : ℕ) (x : Vec α) (s : ℤ) :
    ((Vec_Rescl ops fuel cfrom cto n x s = .error ⟨"Vec_Rescl", 1⟩) ↔
      (cfrom = 0 ∨ ops.isUndefined cfrom = true)) ∧
    ((Vec_Rescl ops fuel cfrom cto n x s = .error ⟨"Vec_Rescl", 2⟩) ↔
      (¬(cfrom = 0 ∨ ops.isUndefined cfrom = true) ∧ ops.isUndefined cto = true)) ∧
    ((¬(cfrom = 0 ∨ ops.isUndefined cfrom = true) ∧ ¬(ops.isUndefined cto = true)) →
      ∃ y, Vec_Rescl ops fuel cfrom cto n x s = .ok y) := by
  unfold Vec_Rescl
  split_ifs with h1 h2 h3 h4 <;> simp_all

/-- Witness for C8 at a concrete valid input (`cfrom = 2`, `cto = 3` in
the exact `Float64` interpretation `realOps`). -/
theorem C8_vecrescl_witness :
    ∃ y, Vec_Rescl realOps 8 (2 : ℝ) 3 1 (fun _ => 1) 1 = .ok y :=
  (C8_vecrescl_validation realOps 8 (2 : ℝ) 3 1 (fun _ => 1) 1).2.2
    ⟨by norm_num [realOps], by norm_num [realOps]⟩

/-! ## `Vec_SmSqr` (`dlassq`) and `Aux_CombSsq2` (`dcombssq`) -/

/-- Loop of `Vec_SmSqr`: one pass updating the `(scale, sumsq)`
accumulator pair with `|x(i)|` for `i = 0 .. n-1`. -/
def Vec_SmSqr_aux {α : Type} [LinearOrderedField α] (ops : ScalarOps α)
    (x : Vec α) (s : ℤ) : ℕ → ℤ → α × α → α × α
  | 0, _, sc => sc
  | n+1, i, (scale, sumsq) =>
    let absxi := |x (i*s)|
    if 0 < intSignOrZero absxi ∨ ops.isUndefined absxi then
      if scale < absxi then
        Vec_SmSqr_aux ops x s n (i+1) (absxi, 1 + sumsq * sqrC (scale / absxi))
      else
        Vec_SmSqr_aux ops x s n (i+1) (scale, sumsq + sqrC (absxi / scale))
    else Vec_SmSqr_aux ops x s n (i+1) (scale, sumsq)

/-- `Vec_SmSqr( n, x, x_s, scale, sumsq )`: scaled sum of squares with
`scl² · smsq = x(0)² + ... + x(n-1)² + scale² · sumsq`. -/
def Vec_SmSqr {α : Type} [LinearOrderedField α] (ops : ScalarOps α) (n : ℕ)
    (x : Vec α) (s : ℤ) (scale sumsq : α) : α × α :=
  if n = 0 then (scale, sumsq) else Vec_SmSqr_aux ops x s n 0 (scale, sumsq)

/-- `Aux_CombSsq2( v1, v2 )`: combine two scaled sum-of-squares pairs
(`v1 := v1 + v2`), transcribed exactly as written in the source. -/
def Aux_CombSsq2 {α : Type} [LinearOrderedField α] (v1 v2 : α × α) : α × α :=
  if v1.1 ≥ v2.1 then
    if v1.1 ≠ 0 then (v1.1, v2.2 + sqrC (v2.1 / v1.1) * v2.2)
    else (v1.1, v1.2 + v2.2)
  else (v2.1, v2.2 + sqrC (v1.1 / v2.1) * v1.2)

/-! ## `Syt_Norm` (`dlanst`) -/

/-- Loop of `Syt_Norm`'s `Max` branch over `i = 0 .. n-2`, folding both
`|d(i)|` and `|e(i)|` into the running maximum with the source's
NaN-propagating comparison. -/
def Syt_Norm_max_aux {α : Type} [LinearOrderedField α] (ops : ScalarOps α)
    (d e : Vec α) : ℕ → ℤ → α → α
  | 0, _, anorm => anorm
  | n+1, i, anorm =>
    let sum1 := |d i|
    let a1 := if anorm < sum1 ∨ ops.isUndefined sum1 then sum1 else anorm
    let sum2 := |e i|
    let a2 := if a1 < sum2 ∨ ops.isUndefined sum2 then sum2 else a1
    Syt_Norm_max_aux ops d e n (i+1) a2

/-- Loop of `Syt_Norm`'s `One`/`Inf` branch over the interior rows
`i = 1 .. n-2`. -/
def Syt_Norm_oneInf_aux {α : Type} [LinearOrderedField α] (ops : ScalarOps α)
    (d e : Vec α) : ℕ → ℤ → α → α
  | 0, _, anorm => anorm
  | n+1, i, anorm =>
    let sum := |d i| + |e i| + |e (i-1)|
    Syt_Norm_oneInf_aux ops d e n (i+1)
      (if anorm < sum ∨ ops.isUndefined sum then sum else anorm)

/-- `Syt_Norm( normType, n, d, e )`: Max / One / Inf / Frobenius norm of
the symmetric tridiagonal matrix given by `(d, e)`. -/
def Syt_Norm {α : Type} [LinearOrderedField α] (ops : ScalarOps α)
    (nt : NormType) (n : ℕ) (d e : Vec α) : α :=
  if n = 0 then 0
  else match nt with
  | .max => Syt_Norm_max_aux ops d e (n-1) 0 |d ((n:ℤ)-1)|
  | .one | .inf =>
    if n = 1 then |d 0|
    else
      let anorm := |d 0| + |e 0|
      let sum := |e ((n:ℤ)-2)| + |d ((n:ℤ)-1)|
      let anorm1 := if anorm < sum ∨ ops.isUndefined sum then sum else anorm
      Syt_Norm_oneInf_aux ops d e (n-2) 1 anorm1
  | .frob =>
    let p1 : α × α := if 1 < n then
        let q := Vec_SmSqr ops (n-1) e 1 0 0
        (q.1, q.2 * 2)
      else (0, 0)
    let p2 := Vec_SmSqr ops n d 1 p1.1 p1.2
    p2.1 * ops.sqrtFn p2.2

/-! ## `Sym_Norm` (`dlansy`) -/

/-- Inner loop of `Sym_Norm`'s `Max` branch: fold `|A(i,j)|` over a row
range into the running maximum. -/
def Sym_Norm_max_iAux {α : Type} [LinearOrderedField α] (ops : ScalarOps α)
    (lyt : MatLyt) (A : Vec α) (ld j : ℤ) : ℕ → ℤ → α → α
  | 0, _, value => value
  | fuel+1, i, value =>
    let aij := |matRef lyt A i j ld|
    Sym_Norm_max_iAux ops lyt A ld j fuel (i+1)
      (if value < aij ∨ ops.isUndefined aij then aij else value)

/-- Column loop of `Sym_Norm`'s `Max`/`Upper` branch (`i = 0 .. j`). -/
def Sym_Norm_max_upperAux {α : Type} [LinearOrderedField α] (ops : ScalarOps α)
    (lyt : MatLyt) (A : Vec α) (ld : ℤ) : ℕ → ℤ → α → α
  | 0, _, value => value
  | n+1, j, value =>
    Sym_Norm_max_upperAux ops lyt A ld n (j+1)
      (Sym_Norm_max_iAux ops lyt A ld j (j+1).toNat 0 value)

/-- Column loop of `Sym_Norm`'s `Max`/`Lower` branch (`i = j .. n-1`). -/
def Sym_Norm_max_lowerAux {α : Type} [LinearOrderedField α] (ops : ScalarOps α)
    (lyt : MatLyt) (nn : ℕ) (A : Vec α) (ld : ℤ) : ℕ → ℤ → α → α
  | 0, _, value => value
  | n+1, j, value =>
    Sym_Norm_max_lowerAux ops lyt nn A ld n (j+1)
      (Sym_Norm_max_iAux ops lyt A ld j ((nn:ℤ) - j).toNat j value)

/-- Inner loop of `Sym_Norm`'s `One`/`Inf` `Upper` branch over
`i = 0 .. j-1`: accumulate `sum` and bump `work[i]`. -/
def Sym_Norm_one_upper_iAux {α : Type} [LinearOrderedField α] (lyt : MatLyt)
    (A : Vec α) (ld j : ℤ) : ℕ → ℤ → α → Vec α → α × Vec α
  | 0, _, sum, work => (sum, work)
  | fuel+1, i, sum, work =>
    let aij := |matRef lyt A i j ld|
    Sym_Norm_one_upper_iAux lyt A ld j fuel (i+1) (sum + aij)
      (wr work i (work i + aij))

/-- Column loop of `Sym_Norm`'s `One`/`Inf` `Upper` branch. -/
def Sym_Norm_one_upper_jAux {α : Type} [LinearOrderedField α] (lyt : MatLyt)
    (A : Vec α) (ld : ℤ) : ℕ → ℤ → Vec α → Vec α
  | 0, _, work => work
  | n+1, j, work =>
    let p := Sym_Norm_one_upper_iAux lyt A ld j j.toNat 0 0 work
    Sym_Norm_one_upper_jAux lyt A ld n (j+1)
      (wr p.2 j (p.1 + |matRef lyt A j j ld|))

/-- Final reduction of `Sym_Norm`'s `One`/`Inf` `Upper` branch: maximum of
`work[0 .. n-1]`. -/
def Sym_Norm_one_reduceAux {α : Type} [LinearOrderedField α] (ops : ScalarOps α)
    (work : Vec α) : ℕ → ℤ → α → α
  | 0, _, value => value
  | n+1, i, value =>
    let u := work i
    Sym_Norm_one_reduceAux ops work n (i+1)
      (if value < u ∨ ops.isUndefined u then u else value)

/-- Inner loop of `Sym_Norm`'s `One`/`Inf` `Lower` branch over
`i = j+1 .. n-1`. -/
def Sym_Norm_one_lower_iAux {α : Type} [LinearOrderedField α] (lyt : MatLyt)
    (A : Vec α) (ld j : ℤ) : ℕ → ℤ → α → Vec α → α × Vec α
  | 0, _, sum, work => (sum, work)
  | fuel+1, i, sum, work =>
    let aij := |matRef lyt A i j ld|
    Sym_Norm_one_lower_iAux lyt A ld j fuel (i+1) (sum + aij)
      (wr work i (work i + aij))

/-- Column loop of `Sym_Norm`'s `One`/`Inf` `Lower` branch. -/
def Sym_Norm_one_lower_jAux {α : Type} [LinearOrderedField α] (ops : ScalarOps α)
    (lyt : MatLyt) (nn : ℕ) (A : Vec α) (ld : ℤ) : ℕ → ℤ → α → Vec α → α × Vec α
  | 0, _, value, work => (value, work)
  | n+1, j, value, work =>
    let p := Sym_Norm_one_lower_iAux lyt A ld j ((nn:ℤ) - (j+1)).toNat (j+1)
      (work j + |matRef lyt A j j ld|) work
    Sym_Norm_one_lower_jAux ops lyt nn A ld n (j+1)
      (if value < p.1 ∨ ops.isUndefined p.1 then p.1 else value) p.2

/-- Off-diagonal column loop of `Sym_Norm`'s `Frob` `Upper` branch
(`j = 1 .. n-1`, column pieces `A(0 .. j-1, j)`). -/
def Sym_Norm_frob_upperAux {α : Type} [LinearOrderedField α] (ops : ScalarOps α)
    (lyt : MatLyt) (A : Vec α) (ld : ℤ) : ℕ → ℤ → α × α → α × α
  | 0, _, ssq => ssq
  | n+1, j, ssq =>
    let colssq := Vec_SmSqr ops ((j-1)+1).toNat (blkPtr lyt A 0 j ld)
      (lyt.colStride ld) 0 1
    Sym_Norm_frob_upperAux ops lyt A ld n (j+1) (Aux_CombSsq2 ssq colssq)

/-- Off-diagonal column loop of `Sym_Norm`'s `Frob` `Lower` branch
(`j = 0 .. n-2`, column pieces `A(j+1 .. n-1, j)`). -/
def Sym_Norm_frob_lowerAux {α : Type} [LinearOrderedField α] (ops : ScalarOps α)
    (lyt : MatLyt) (nn : ℕ) (A : Vec α) (ld : ℤ) : ℕ → ℤ → α × α → α × α
  | 0, _, ssq => ssq
  | n+1, j, ssq =>
    let colssq := Vec_SmSqr ops ((nn:ℤ) - (j+1)).toNat (blkPtr lyt A (j+1) j ld)
      (lyt.colStride ld) 0 1
    Sym_Norm_frob_lowerAux ops lyt nn A ld n (j+1) (Aux_CombSsq2 ssq colssq)

/-- `Sym_Norm( normType, half, n, A_, A_ld, work )`: norm of a real
symmetric matrix stored in one triangular half.  Returns the value and
the (possibly updated) work buffer.  For `Half::Both` the function
returns the `undefined` (quiet-NaN) initial value without entering the
norm computation. -/
def Sym_Norm {α : Type} [LinearOrderedField α] (ops : ScalarOps α) (lyt : MatLyt)
    (nt : NormType) (half : Half) (n : ℕ) (A : Vec α) (ld : ℤ)
    (work : Vec α) : α × Vec α :=
  if n = 0 then (0, work)
  else
    let value := ops.undefinedVal
    if half = Half.both then (value, work)
    else match nt with
    | .max =>
      match half with
      | .upper => (Sym_Norm_max_upperAux ops lyt A ld n 0 0, work)
      | _ => (Sym_Norm_max_lowerAux ops lyt n A ld n 0 0, work)
    | .one | .inf =>
      match half with
      | .upper =>
        let work1 := Sym_Norm_one_upper_jAux lyt A ld n 0 work
        (Sym_Norm_one_reduceAux ops work1 n 0 0, work1)
      | _ =>
        let work0 := Vec_Zero n work 1
        Sym_Norm_one_lower_jAux ops lyt n A ld n 0 0 work0
    | .frob =>
      let ssq0 : α × α := (0, 1)
      let ssq1 := match half with
        | .upper => Sym_Norm_frob_upperAux ops lyt A ld (n-1) 1 ssq0
        | _ => Sym_Norm_frob_lowerAux ops lyt n A ld (n-1) 0 ssq0
      let ssq2 : α × α := (ssq1.1, ssq1.2 + ssq1.2)
      let colssq := Vec_SmSqr ops n (blkPtr lyt A 0 0 ld) (lyt.diagStride ld) 0 1
      let ssq3 := Aux_CombSsq2 ssq2 colssq
      (ssq3.1 * ops.sqrtFn ssq3.2, work)

/-! ## `Sym_Rank2Upd` (`dsyr2`) -/

/-- Inner row loop of `Sym_Rank2Upd`: `A(i,j) += x(i)*u + y(i)*v` over a
row range. -/
def Sym_Rank2Upd_iAux {α : Type} [LinearOrderedField α] (lyt : MatLyt)
    (u v : α) (x : Vec α) (xs : ℤ) (y : Vec α) (ys j ld : ℤ) :
    ℕ → ℤ → Vec α → Vec α
  | 0, _, A => A
  | fuel+1, i, A =>
    Sym_Rank2Upd_iAux lyt u v x xs y ys j ld fuel (i+1)
      (matWr lyt A i j ld (matRef lyt A i j ld + x (i*xs) * u + y (i*ys) * v))

/-- Column loop of `Sym_Rank2Upd` for the `Upper` half (`i = 0 .. j`). -/
def Sym_Rank2Upd_upperAux {α : Type} [LinearOrderedField α] (lyt : MatLyt)
    (alpha : α) (x : Vec α) (xs : ℤ) (y : Vec α) (ys ld : ℤ) :
    ℕ → ℤ → Vec α → Vec α
  | 0, _, A => A
  | n+1, j, A =>
    let u := y (j*ys)
    let v := x (j*xs)
    let A1 := if u ≠ 0 ∨ v ≠ 0 then
        Sym_Rank2Upd_iAux lyt (u*alpha) (v*alpha) x xs y ys j ld (j+1).toNat 0 A
      else A
    Sym_Rank2Upd_upperAux lyt alpha x xs y ys ld n (j+1) A1

/-- Column loop of `Sym_Rank2Upd` for the `Lower` half (`i = j .. n-1`). -/
def Sym_Rank2Upd_lowerAux {α : Type} [LinearOrderedField α] (lyt : MatLyt)
    (nn : ℕ) (alpha : α) (x : Vec α) (xs : ℤ) (y : Vec α) (ys ld : ℤ) :
    ℕ → ℤ → Vec α → Vec α
  | 0, _, A => A
  | n+1, j, A =>
    let u := y (j*ys)
    let v := x (j*xs)
    let A1 := if u ≠ 0 ∨ v ≠ 0 then
        Sym_Rank2Upd_iAux lyt (u*alpha) (v*alpha) x xs y ys j ld
          ((nn:ℤ) - j).toNat j A
      else A
    Sym_Rank2Upd_lowerAux lyt nn alpha x xs y ys ld n (j+1) A1

/-- `Sym_Rank2Upd( half, n, alpha, x_, x_s, y_, y_s, A_, A_ld )`:
`A := alpha*x*(~y) + alpha*y*(~x) + A` on one triangular half;
`Half::Both` throws `BadArgument` with argument index 1. -/
def Sym_Rank2Upd {α : Type} [LinearOrderedField α] (lyt : MatLyt) (half : Half)
    (n : ℕ) (alpha : α) (x : Vec α) (xs : ℤ) (y : Vec α) (ys : ℤ)
    (A : Vec α) (ld : ℤ) : Except BadArgument (Vec α) :=
  if half = Half.both then .error ⟨"Sym_Rank2Upd", 1⟩
  else if alpha = 0 then .ok A
  else match half with
  | .upper => .ok (Sym_Rank2Upd_upperAux lyt alpha x xs y ys ld n 0 A)
  | .lower => .ok (Sym_Rank2Upd_lowerAux lyt n alpha x xs y ys ld n 0 A)
  | .both => .ok A

/-! ## `Tri_Solv_Vec` (`dtrsv`) -/

/-- Downward update loop of `Tri_Solv_Vec` (`Trnsp::No`, `Upper`):
`x(i) -= xj*A(i,j)` for `i = j-1 .. 0`. -/
def Tri_Solv_Vec_no_upper_iAux {α : Type} [LinearOrderedField α] (lyt : MatLyt)
    (A : Vec α) (ld : ℤ) (xj : α) (xs j : ℤ) : ℕ → ℤ → Vec α → Vec α
  | 0, _, x => x
  | fuel+1, i, x =>
    Tri_Solv_Vec_no_upper_iAux lyt A ld xj xs j fuel (i-1)
      (wr x (i*xs) (x (i*xs) - xj * matRef lyt A i j ld))

/-- Column loop of `Tri_Solv_Vec` (`Trnsp::No`, `Upper`),
`j = n-1 .. 0`. -/
def Tri_Solv_Vec_no_upper_jAux {α : Type} [LinearOrderedField α] (lyt : MatLyt)
    (diag : Diag) (A : Vec α) (ld xs : ℤ) : ℕ → ℤ → Vec α → Vec α
  | 0, _, x => x
  | n+1, j, x =>
    if x (j*xs) = 0 then Tri_Solv_Vec_no_upper_jAux lyt diag A ld xs n (j-1) x
    else
      let x1 := if diag = Diag.notUnit then
          wr x (j*xs) (x (j*xs) / matRef lyt A j j ld) else x
      let xj := x1 (j*xs)
      Tri_Solv_Vec_no_upper_jAux lyt diag A ld xs n (j-1)
        (Tri_Solv_Vec_no_upper_iAux lyt A ld xj xs j j.toNat (j-1) x1)

/-- Upward update loop of `Tri_Solv_Vec` (`Trnsp::No`, `Lower`):
`x(i) -= xj*A(i,j)` for `i = j+1 .. n-1`. -/
def Tri_Solv_Vec_no_lower_iAux {α : Type} [LinearOrderedField α] (lyt : MatLyt)
    (A : Vec α) (ld : ℤ) (xj : α) (xs j : ℤ) : ℕ → ℤ → Vec α → Vec α
  | 0, _, x => x
  | fuel+1, i, x =>
    Tri_Solv_Vec_no_lower_iAux lyt A ld xj xs j fuel (i+1)
      (wr x (i*xs) (x (i*xs) - xj * matRef lyt A i j ld))

/-- Column loop of `Tri_Solv_Vec` (`Trnsp::No`, `Lower`),
`j = 0 .. n-1`. -/
def Tri_Solv_Vec_no_lower_jAux {α : Type} [LinearOrderedField α] (lyt : MatLyt)
    (nn : ℕ) (diag : Diag) (A : Vec α) (ld xs : ℤ) : ℕ → ℤ → Vec α → Vec α
  | 0, _, x => x
  | n+1, j, x =>
    if x (j*xs) = 0 then Tri_Solv_Vec_no_lower_jAux lyt nn diag A ld xs n (j+1) x
    else
      let x1 := if diag = Diag.notUnit then
          wr x (j*xs) (x (j*xs) / matRef lyt A j j ld) else x
      let xj := x1 (j*xs)
      Tri_Solv_Vec_no_lower_jAux lyt nn diag A ld xs n (j+1)
        (Tri_Solv_Vec_no_lower_iAux lyt A ld xj xs j ((nn:ℤ) - (j+1)).toNat (j+1) x1)

/-- Dot-product loop of `Tri_Solv_Vec` (`Trnsp::Yes`/`Conj`, `Upper`):
`xj -= A(i,j)*x(i)` (with `Conj` applied for the `Conj` variant, the
identity here) over `i = 0 .. j-1`. -/
def Tri_Solv_Vec_yes_upper_iAux {α : Type} [LinearOrderedField α] (lyt : MatLyt)
    (A : Vec α) (ld : ℤ) (x : Vec α) (xs j : ℤ) : ℕ → ℤ → α → α
  | 0, _, xj => xj
  | fuel+1, i, xj =>
    Tri_Solv_Vec_yes_upper_iAux lyt A ld x xs j fuel (i+1)
      (xj - matRef lyt A i j ld * x (i*xs))

/-- Column loop of `Tri_Solv_Vec` (`Trnsp::Yes`/`Conj`, `Upper`),
`j = 0 .. n-1`. -/
def Tri_Solv_Vec_yes_upper_jAux {α : Type} [LinearOrderedField α] (lyt : MatLyt)
    (diag : Diag) (A : Vec α) (ld xs : ℤ) : ℕ → ℤ → Vec α → Vec α
  | 0, _, x => x
  | n+1, j, x =>
    let xj := Tri_Solv_Vec_yes_upper_iAux lyt A ld x xs j j.toNat 0 (x (j*xs))
    let xj1 := if diag = Diag.notUnit then xj / matRef lyt A j j ld else xj
    Tri_Solv_Vec_yes_upper_jAux lyt diag A ld xs n (j+1) (wr x (j*xs) xj1)

/-- Dot-product loop of `Tri_Solv_Vec` (`Trnsp::Yes`/`Conj`, `Lower`):
`xj -= A(i,j)*x(i)` over `i = n-1 .. j+1`. -/
def Tri_Solv_Vec_yes_lower_iAux {α : Type} [LinearOrderedField α] (lyt : MatLyt)
    (A : Vec α) (ld : ℤ) (x : Vec α) (xs j : ℤ) : ℕ → ℤ → α → α
  | 0, _, xj => xj
  | fuel+1, i, xj =>
    Tri_Solv_Vec_yes_lower_iAux lyt A ld x xs j fuel (i-1)
      (xj - matRef lyt A i j ld * x (i*xs))

/-- Column loop of `Tri_Solv_Vec` (`Trnsp::Yes`/`Conj`, `Lower`),
`j = n-1 .. 0`. -/
def Tri_Solv_Vec_yes_lower_jAux {α : Type} [LinearOrderedField α] (lyt : MatLyt)
    (nn : ℕ) (diag : Diag) (A : Vec α) (ld xs : ℤ) : ℕ → ℤ → Vec α → Vec α
  | 0, _, x => x
  | n+1, j, x =>
    let xj := Tri_Solv_Vec_yes_lower_iAux lyt A ld x xs j ((nn:ℤ) - (j+1)).toNat
      ((nn:ℤ)-1) (x (j*xs))
    let xj1 := if diag = Diag.notUnit then xj / matRef lyt A j j ld else xj
    Tri_Solv_Vec_yes_lower_jAux lyt nn diag A ld xs n (j-1) (wr x (j*xs) xj1)

/-- `Tri_Solv_Vec( half, A_trnsp, diag, n, A_, A_ld, x_, x_s )`: solve
`A*x = b` or `(~A)*x = b` in place for a triangular `A`.  `Half::Both`
throws `BadArgument` with argument index 1; an undersized leading
dimension throws with index 6.  (`Conj` coincides with `Yes` because
`Conj` is the identity on the non-complex scalars.) -/
def Tri_Solv_Vec {α : Type} [LinearOrderedField α] (lyt : MatLyt) (half : Half)
    (trnsp : Trnsp) (diag : Diag) (n : ℕ) (A : Vec α) (ld : ℤ)
    (x : Vec α) (xs : ℤ) : Except BadArgument (Vec α) :=
  if half = Half.both then .error ⟨"Tri_Solv_Vec", 1⟩
  else if ld < max 1 (n:ℤ) then .error ⟨"Tri_Solv_Vec", 6⟩
  else match trnsp with
  | .no =>
    match half with
    | .upper => .ok (Tri_Solv_Vec_no_upper_jAux lyt diag A ld xs n ((n:ℤ)-1) x)
    | .lower => .ok (Tri_Solv_Vec_no_lower_jAux lyt n diag A ld xs n 0 x)
    | .both => .ok x
  | .yes | .conj =>
    match half with
    | .upper => .ok (Tri_Solv_Vec_yes_upper_jAux lyt diag A ld xs n 0 x)
    | .lower => .ok (Tri_Solv_Vec_yes_lower_jAux lyt n diag A ld xs n ((n:ℤ)-1) x)
    | .both => .ok x

/-! ### Claim C9 -/

/-- C9: the triangular-only routines handle `Half::Both` inconsistently
rather than throwing uniformly: `Sym_Rank2Upd` throws `BadArgument` with
argument index 1 (likewise `Tri_Solv_Vec`), whereas `Sym_Norm` with
`Half::Both` and `n ≥ 1` throws nothing and returns the undefined
(quiet-NaN) scalar value, leaving the work buffer untouched. -/
theorem C9_half_both_inconsistent {α : Type} [LinearOrderedField α]
    (ops : ScalarOps α) (lyt : MatLyt) (nt : NormType) (trnsp : Trnsp)
    (diag : Diag) (n : ℕ) (hn : 1 ≤ n) (alpha : α) (x : Vec α) (xs : ℤ)
    (y : Vec α) (ys : ℤ) (A : Vec α) (ld : ℤ) (xv : Vec α) (xvs : ℤ)
    (work : Vec α) :
    Sym_Rank2Upd lyt Half.both n alpha x xs y ys A ld =
      .error ⟨"Sym_Rank2Upd", 1⟩ ∧
    Tri_Solv_Vec lyt Half.both trnsp diag n A ld xv xvs =
      .error ⟨"Tri_Solv_Vec", 1⟩ ∧
    Sym_Norm ops lyt nt Half.both n A ld work = (ops.undefinedVal, work) := by
  refine ⟨by simp [Sym_Rank2Upd], by simp [Tri_Solv_Vec], ?_⟩
  have hn0 : n ≠ 0 := by omega
  simp [Sym_Norm, hn0]

/-- Witness for C9 at `n = 2` in the exact `Float64` interpretation. -/
theorem C9_half_both_witness :
    Sym_Rank2Upd MatLyt.colMajor Half.both 2 (1:ℝ) (fun _ => 1) 1 (fun _ => 1) 1
      (fun _ => 1) 2 = .error ⟨"Sym_Rank2Upd", 1⟩ ∧
    Tri_Solv_Vec MatLyt.colMajor Half.both Trnsp.no Diag.notUnit 2
      (fun _ => (1:ℝ)) 2 (fun _ => 1) 1 = .error ⟨"Tri_Solv_Vec", 1⟩ ∧
    Sym_Norm realOps MatLyt.colMajor NormType.max Half.both 2 (fun _ => (1:ℝ)) 2
      (fun _ => 1) = (realOps.undefinedVal, fun _ => 1) :=
  C9_half_both_inconsistent realOps MatLyt.colMajor NormType.max Trnsp.no
    Diag.notUnit 2 (by decide) 1 (fun _ => 1) 1 (fun _ => 1) 1 (fun _ => 1) 2
    (fun _ => 1) 1 (fun _ => 1)

/-! ## `Mat_RotSeq` (`dlasr`)

The source repeats one loop skeleton twelve times (side × pivot ×
direction): iterate the rotation index, skip rotations whose cosine and
sine are both the scalar unit (`! IsUnit(cj) || ! IsUnit(sj)`), and apply
a two-row (or two-column) update across the block.  The skeleton is
factored into `Mat_RotSeq_fwdLoop` / `Mat_RotSeq_bwdLoop` over a
per-variant `step`; the `Pivot::Top` loops, which run `j = 1 .. z-1`
addressing `c[j-1]`, are re-indexed by `t = j-1` so that every variant
addresses `c[t]`, `s[t]`. -/

/-- Ascending rotation-index loop with the unit-rotation skip. -/
def Mat_RotSeq_fwdLoop {α : Type} [LinearOrderedField α] (c s : Vec α)
    (step : ℤ → Vec α → Vec α) : ℕ → ℤ → Vec α → Vec α
  | 0, _, A => A
  | cnt+1, j, A =>
    Mat_RotSeq_fwdLoop c s step cnt (j+1)
      (if ¬(c j = 1) ∨ ¬(s j = 1) then step j A else A)

/-- Descending rotation-index loop with the unit-rotation skip. -/
def Mat_RotSeq_bwdLoop {α : Type} [LinearOrderedField α] (c s : Vec α)
    (step : ℤ → Vec α → Vec α) : ℕ → ℤ → Vec α → Vec α
  | 0, _, A => A
  | cnt+1, j, A =>
    Mat_RotSeq_bwdLoop c s step cnt (j-1)
      (if ¬(c j = 1) ∨ ¬(s j = 1) then step j A else A)

/-- `Side::Left`, `Pivot::Var` body: rotate rows `j` and `j+1` across
columns `i = 0 .. n-1`. -/
def Mat_RotSeq_leftVar_i {α : Type} [LinearOrderedField α] (lyt : MatLyt)
    (cj sj : α) (j ld : ℤ) : ℕ → ℤ → Vec α → Vec α
  | 0, _, A => A
  | cnt+1, i, A =>
    let aji := matRef lyt A (j+1) i ld
    let A1 := matWr lyt A (j+1) i ld (cj*aji - sj*matRef lyt A j i ld)
    let A2 := matWr lyt A1 j i ld (sj*aji + cj*matRef lyt A1 j i ld)
    Mat_RotSeq_leftVar_i lyt cj sj j ld cnt (i+1) A2

/-- `Side::Left`, `Pivot::Top` body (re-indexed): rotate rows `t+1` and
`0` across columns `i = 0 .. n-1`. -/
def Mat_RotSeq_leftTop_i {α : Type} [LinearOrderedField α] (lyt : MatLyt)
    (cj sj : α) (t ld : ℤ) : ℕ → ℤ → Vec α → Vec α
  | 0, _, A => A
  | cnt+1, i, A =>
    let aji := matRef lyt A (t+1) i ld
    let A1 := matWr lyt A (t+1) i ld (cj*aji - sj*matRef lyt A 0 i ld)
    let A2 := matWr lyt A1 0 i ld (sj*aji + cj*matRef lyt A1 0 i ld)
    Mat_RotSeq_leftTop_i lyt cj sj t ld cnt (i+1) A2

/-- `Side::Left`, `Pivot::Btm` body: rotate rows `j` and `m-1` across
columns `i = 0 .. n-1`. -/
def Mat_RotSeq_leftBtm_i {α : Type} [LinearOrderedField α] (lyt : MatLyt)
    (cj sj : α) (j mI ld : ℤ) : ℕ → ℤ → Vec α → Vec α
  | 0, _, A => A
  | cnt+1, i, A =>
    let aji := matRef lyt A j i ld
    let A1 := matWr lyt A j i ld (sj*matRef lyt A (mI-1) i ld + cj*aji)
    let A2 := matWr lyt A1 (mI-1) i ld (cj*matRef lyt A1 (mI-1) i ld - sj*aji)
    Mat_RotSeq_leftBtm_i lyt cj sj j mI ld cnt (i+1) A2

/-- `Side::Right`, `Pivot::Var` body: rotate columns `j` and `j+1` across
rows `i = 0 .. m-1`. -/
def Mat_RotSeq_rightVar_i {α : Type} [LinearOrderedField α] (lyt : MatLyt)
    (cj sj : α) (j ld : ℤ) : ℕ → ℤ → Vec α → Vec α
  | 0, _, A => A
  | cnt+1, i, A =>
    let aij := matRef lyt A i (j+1) ld
    let A1 := matWr lyt A i (j+1) ld (cj*aij - sj*matRef lyt A i j ld)
    let A2 := matWr lyt A1 i j ld (sj*aij + cj*matRef lyt A1 i j ld)
    Mat_RotSeq_rightVar_i lyt cj sj j ld cnt (i+1) A2

/-- `Side::Right`, `Pivot::Top` body (re-indexed): rotate columns `t+1`
and `0` across rows `i = 0 .. m-1`. -/
def Mat_RotSeq_rightTop_i {α : Type} [LinearOrderedField α] (lyt : MatLyt)
    (cj sj : α) (t ld : ℤ) : ℕ → ℤ → Vec α → Vec α
  | 0, _, A => A
  | cnt+1, i, A =>
    let aij := matRef lyt A i (t+1) ld
    let A1 := matWr lyt A i (t+1) ld (cj*aij - sj*matRef lyt A i 0 ld)
    let A2 := matWr lyt A1 i 0 ld (sj*aij + cj*matRef lyt A1 i 0 ld)
    Mat_RotSeq_rightTop_i lyt cj sj t ld cnt (i+1) A2

/-- `Side::Right`, `Pivot::Btm` body, `Direct::Fwd` variant, transcribed
exactly as written in the source — including the second statement's read
of `A(i,n)` (one column past the block; the `Direct::Bwd` twin reads
`A(i,n-1)` there). -/
def Mat_RotSeq_rightBtmFwd_i {α : Type} [LinearOrderedField α] (lyt : MatLyt)
    (cj sj : α) (j nI ld : ℤ) : ℕ → ℤ → Vec α → Vec α
  | 0, _, A => A
  | cnt+1, i, A =>
    let aij := matRef lyt A i j ld
    let A1 := matWr lyt A i j ld (sj*matRef lyt A i (nI-1) ld + cj*aij)
    let A2 := matWr lyt A1 i (nI-1) ld (cj*matRef lyt A1 i nI ld - sj*aij)
    Mat_RotSeq_rightBtmFwd_i lyt cj sj j nI ld cnt (i+1) A2

/-- `Side::Right`, `Pivot::Btm` body, `Direct::Bwd` variant (reads
`A(i,n-1)`, in bounds). -/
def Mat_RotSeq_rightBtmBwd_i {α : Type} [LinearOrderedField α] (lyt : MatLyt)
    (cj sj : α) (j nI ld : ℤ) : ℕ → ℤ → Vec α → Vec α
  | 0, _, A => A
  | cnt+1, i, A =>
    let aij := matRef lyt A i j ld
    let A1 := matWr lyt A i j ld (sj*matRef lyt A i (nI-1) ld + cj*aij)
    let A2 := matWr lyt A1 i (nI-1) ld (cj*matRef lyt A1 i (nI-1) ld - sj*aij)
    Mat_RotSeq_rightBtmBwd_i lyt cj sj j nI ld cnt (i+1) A2

/-- `Mat_RotSeq( side, pivot, direct, m, n, c, s, A_, A_ld )`: apply the
sequence of plane rotations `(c[t], s[t])` to the `m × n` block `A`. -/
def Mat_RotSeq {α : Type} [LinearOrderedField α] (lyt : MatLyt) (side : Side)
    (pivot : Pivot) (direct : Direct) (m n : ℕ) (c s : Vec α)
    (A : Vec α) (ld : ℤ) : Vec α :=
  if m = 0 ∨ n = 0 then A
  else match side, pivot, direct with
  | .left, .var, .fwd =>
    Mat_RotSeq_fwdLoop c s (fun j B => Mat_RotSeq_leftVar_i lyt (c j) (s j) j ld n 0 B)
      (m-1) 0 A
  | .left, .var, .bwd =>
    Mat_RotSeq_bwdLoop c s (fun j B => Mat_RotSeq_leftVar_i lyt (c j) (s j) j ld n 0 B)
      (m-1) ((m:ℤ)-2) A
  | .left, .top, .fwd =>
    Mat_RotSeq_fwdLoop c s (fun t B => Mat_RotSeq_leftTop_i lyt (c t) (s t) t ld n 0 B)
      (m-1) 0 A
  | .left, .top, .bwd =>
    Mat_RotSeq_bwdLoop c s (fun t B => Mat_RotSeq_leftTop_i lyt (c t) (s t) t ld n 0 B)
      (m-1) ((m:ℤ)-2) A
  | .left, .btm, .fwd =>
    Mat_RotSeq_fwdLoop c s
      (fun j B => Mat_RotSeq_leftBtm_i lyt (c j) (s j) j (m:ℤ) ld n 0 B)
      (m-1) 0 A
  | .left, .btm, .bwd =>
    Mat_RotSeq_bwdLoop c s
      (fun j B => Mat_RotSeq_leftBtm_i lyt (c j) (s j) j (m:ℤ) ld n 0 B)
      (m-1) ((m:ℤ)-2) A
  | .right, .var, .fwd =>
    Mat_RotSeq_fwdLoop c s (fun j B => Mat_RotSeq_rightVar_i lyt (c j) (s j) j ld m 0 B)
      (n-1) 0 A
  | .right, .var, .bwd =>
    Mat_RotSeq_bwdLoop c s (fun j B => Mat_RotSeq_rightVar_i lyt (c j) (s j) j ld m 0 B)
      (n-1) ((n:ℤ)-2) A
  | .right, .top, .fwd =>
    Mat_RotSeq_fwdLoop c s (fun t B => Mat_RotSeq_rightTop_i lyt (c t) (s t) t ld m 0 B)
      (n-1) 0 A
  | .right, .top, .bwd =>
    Mat_RotSeq_bwdLoop c s (fun t B => Mat_RotSeq_rightTop_i lyt (c t) (s t) t ld m 0 B)
      (n-1) ((n:ℤ)-2) A
  | .right, .btm, .fwd =>
    Mat_RotSeq_fwdLoop c s
      (fun j B => Mat_RotSeq_rightBtmFwd_i lyt (c j) (s j) j (n:ℤ) ld m 0 B)
      (n-1) 0 A
  | .right, .btm, .bwd =>
    Mat_RotSeq_bwdLoop c s
      (fun j B => Mat_RotSeq_rightBtmBwd_i lyt (c j) (s j) j (n:ℤ) ld m 0 B)
      (n-1) ((n:ℤ)-2) A

/-! ### Read trace for the `Side::Right`, `Pivot::Btm`, `Direct::Fwd` branch -/

/-- Logical `(row, column)` coordinates read from `A` by one applied
rotation of the `Right`/`Btm`/`Fwd` branch, across rows `i = 0 .. m-1`:
the statements read `A(i,j)`, `A(i,n-1)` and `A(i,n)` in turn. -/
def Mat_RotSeq_rightBtmFwd_reads_i (j nI : ℤ) : ℕ → ℤ → List (ℤ × ℤ)
  | 0, _ => []
  | cnt+1, i => (i, j) :: (i, nI-1) :: (i, nI) ::
      Mat_RotSeq_rightBtmFwd_reads_i j nI cnt (i+1)

/-- Rotation loop of the read trace: rotations skipped by the unit test
read nothing. -/
def Mat_RotSeq_rightBtmFwd_reads_j {α : Type} [LinearOrderedField α]
    (m : ℕ) (nI : ℤ) (c s : Vec α) : ℕ → ℤ → List (ℤ × ℤ)
  | 0, _ => []
  | cnt+1, j =>
    (if ¬(c j = 1) ∨ ¬(s j = 1) then Mat_RotSeq_rightBtmFwd_reads_i j nI m 0 else [])
      ++ Mat_RotSeq_rightBtmFwd_reads_j m nI c s cnt (j+1)

/-- All logical `(row, column)` coordinates of `A` read by
`Mat_RotSeq( Side::Right, Pivot::Btm, Direct::Fwd, m, n, c, s, A, ld )`. -/
def Mat_RotSeq_rightBtmFwd_readTrace {α : Type} [LinearOrderedField α]
    (m n : ℕ) (c s : Vec α) : List (ℤ × ℤ) :=
  if m = 0 ∨ n = 0 then []
  else Mat_RotSeq_rightBtmFwd_reads_j m (n:ℤ) c s (n-1) 0

/-! ### Claim C10 -/

/-- C10, as stated, is false on the code: on a `1 × 2` block with a
single genuine rotation, the `Side::Right`, `Pivot::Btm`, `Direct::Fwd`
branch of `Mat_RotSeq` reads the element at row `0`, column `2` — column
index `n = 2`, one past the last valid column `n-1 = 1`. -/
theorem C10_rotseq_oob_read :
    ((0:ℤ), (2:ℤ)) ∈
      Mat_RotSeq_rightBtmFwd_readTrace (α := ℚ) 1 2 (fun _ => 0) (fun _ => 0) ∧
    (2:ℤ) - 1 < 2 := by
  constructor
  · simp [Mat_RotSeq_rightBtmFwd_readTrace, Mat_RotSeq_rightBtmFwd_reads_j,
      Mat_RotSeq_rightBtmFwd_reads_i]
  · decide

/-! ## `Aux_PlnRot2` (`dlartg`) -/

/-- The `do/while` down-scaling loop of `Aux_PlnRot2` (entered when
`scale >= safmax`): multiply `f1, g1` by `safmin` until the magnitude
falls below `safmax`, counting the steps.  Fuel-bounded; the body always
runs at least once (`do/while`). -/
def Aux_PlnRot2_scaleDown {α : Type} [LinearOrderedField α] (ops : ScalarOps α) :
    ℕ → α → α → ℕ → α × α × ℕ
  | fuel, f1, g1, count =>
    let f2 := f1 * ops.safmin
    let g2 := g1 * ops.safmin
    let scale := max |f2| |g2|
    if ops.safmax ≥ scale then
      match fuel with
      | 0 => (f2, g2, count+1)
      | fuel'+1 => Aux_PlnRot2_scaleDown ops fuel' f2 g2 (count+1)
    else (f2, g2, count+1)

/-- The `do/while` up-scaling loop of `Aux_PlnRot2` (entered when
`scale <= safmin`): multiply `f1, g1` by `safmax` until the magnitude
rises above `safmin`. -/
def Aux_PlnRot2_scaleUp {α : Type} [LinearOrderedField α] (ops : ScalarOps α) :
    ℕ → α → α → ℕ → α × α × ℕ
  | fuel, f1, g1, count =>
    let f2 := f1 * ops.safmax
    let g2 := g1 * ops.safmax
    let scale := max |f2| |g2|
    if scale ≤ ops.safmin then
      match fuel with
      | 0 => (f2, g2, count+1)
      | fuel'+1 => Aux_PlnRot2_scaleUp ops fuel' f2 g2 (count+1)
    else (f2, g2, count+1)

/-- `Aux_PlnRot2( f, g, cs, sn, r )`: generate a plane rotation with
`[[cs,sn],[-sn,cs]]·[f;g] = [r;0]`.  `isExact` is false for every scalar
of this library, so the rescaling (non-exact) general case is the live
one; the `while( count-- ) r *= safm..` un-scaling loops are `r`
multiplied by the factor `count` times.  Returns `(cs, sn, r)`. -/
def Aux_PlnRot2 {α : Type} [LinearOrderedField α] (ops : ScalarOps α) (fuel : ℕ)
    (f g : α) : α × α × α :=
  if g = 0 then (1, 0, f)
  else if f = 0 then (0, 1, g)
  else
    let scale := max |f| |g|
    if scale ≥ ops.safmax then
      let q := Aux_PlnRot2_scaleDown ops fuel f g 0
      let r := ops.hypotFn q.1 q.2.1
      let cs := q.1 / r
      let sn := q.2.1 / r
      let r1 := r * ops.safmax ^ q.2.2
      if |f| > |g| ∧ intSignOrZero cs < 0 then (-cs, -sn, -r1) else (cs, sn, r1)
    else if scale ≤ ops.safmin then
      let q := Aux_PlnRot2_scaleUp ops fuel f g 0
      let r := ops.hypotFn q.1 q.2.1
      let cs := q.1 / r
      let sn := q.2.1 / r
      let r1 := r * ops.safmin ^ q.2.2
      if |f| > |g| ∧ intSignOrZero cs < 0 then (-cs, -sn, -r1) else (cs, sn, r1)
    else
      let r := ops.hypotFn f g
      let cs := f / r
      let sn := g / r
      if |f| > |g| ∧ intSignOrZero cs < 0 then (-cs, -sn, -r) else (cs, sn, r)

/-! ## `Aux_Eig2` (`dlae2`) and `Aux_EigVec2` (`dlaev2`) -/

/-- The scaled square-root term `rt` shared by `Aux_Eig2` and
`Aux_EigVec2` (the two sources contain the same text verbatim). -/
def Aux_Eig2_rt {α : Type} [LinearOrderedField α] (ops : ScalarOps α)
    (adf ab : α) : α :=
  if adf > ab then adf * ops.hypotFn 1 (ab/adf)
  else if adf < ab then ab * ops.hypotFn 1 (adf/ab)
  else ab * ops.sqrtFn 2

/-- The eigenvalue switch on `IntSignOrZero(sm)` shared verbatim by
`Aux_Eig2` and `Aux_EigVec2` (`_oneHalf` is `Inv(T{2})`); `sgn1` is `-1`
exactly in the negative-trace case, as in `Aux_EigVec2`'s bookkeeping. -/
def Aux_Eig2_vals {α : Type} [LinearOrderedField α] (sm rt acmx acmn b : α) :
    α × α × ℤ :=
  if intSignOrZero sm = -1 then
    let rt1 := invC 2 * (sm - rt)
    (rt1, (acmx/rt1) * acmn - (b/rt1) * b, -1)
  else if intSignOrZero sm = 1 then
    let rt1 := invC 2 * (sm + rt)
    (rt1, (acmx/rt1) * acmn - (b/rt1) * b, 1)
  else
    (invC 2 * rt, -(invC 2) * rt, 1)

/-- `Aux_Eig2( a, b, c, rt1, rt2 )`: closed-form eigenvalues of the
symmetric 2×2 block `[[a,b],[b,c]]` (returned as `(rt1, rt2)`). -/
def Aux_Eig2 {α : Type} [LinearOrderedField α] (ops : ScalarOps α)
    (a b c : α) : α × α :=
  let sm := a + c
  let df := a - c
  let adf := |df|
  let tb := b + b
  let ab := |tb|
  let acmx := if |a| > |c| then a else c
  let acmn := if |a| > |c| then c else a
  let rt := Aux_Eig2_rt ops adf ab
  let p := Aux_Eig2_vals sm rt acmx acmn b
  (p.1, p.2.1)

/-- `Aux_EigVec2( a, b, c, rt1, rt2, cs1, sn1 )`: closed-form eigenvalues
and diagonalizing rotation of the symmetric 2×2 block; returned as
`(rt1, rt2, cs1, sn1)`.  The eigenvalue half is the shared
`Aux_Eig2_vals` text; the final `sgn1 == sgn2` swap touches only the
`(cs1, sn1)` pair. -/
def Aux_EigVec2 {α : Type} [LinearOrderedField α] (ops : ScalarOps α)
    (a b c : α) : α × α × α × α :=
  let sm := a + c
  let df := a - c
  let adf := |df|
  let tb := b + b
  let ab := |tb|
  let acmx := if |a| > |c| then a else c
  let acmn := if |a| > |c| then c else a
  let rt := Aux_Eig2_rt ops adf ab
  let p := Aux_Eig2_vals sm rt acmx acmn b
  let sgn1 := p.2.2
  let q : α × ℤ := if 0 ≤ intSignOrZero df then (df + rt, 1) else (df - rt, -1)
  let cs := q.1
  let sgn2 := q.2
  let acs := |cs|
  let v : α × α :=
    if acs > ab then
      let ct := -tb/cs
      let sn1 := invC (ops.hypotFn 1 ct)
      (ct * sn1, sn1)
    else if ab = 0 then (1, 0)
    else
      let tn := -cs/tb
      let cs1 := invC (ops.hypotFn 1 tn)
      (cs1, tn * cs1)
  let w : α × α := if sgn1 = sgn2 then (-v.2, v.1) else (v.1, v.2)
  (p.1, p.2.1, w.1, w.2)

/-- The eigenvalues computed by `Aux_EigVec2` coincide with `Aux_Eig2`
(the two sources share the eigenvalue text verbatim; the eigenvector part
does not feed back into `rt1`/`rt2`). -/
theorem Aux_EigVec2_eigenvalues {α : Type} [LinearOrderedField α]
    (ops : ScalarOps α) (a b c : α) :
    ((Aux_EigVec2 ops a b c).1, (Aux_EigVec2 ops a b c).2.1) =
      Aux_Eig2 ops a b c := rfl

/-! ## `Vec_Norm2` (stable 2-norm) -/

/-- Accumulation loop of `Vec_Norm2` over the `(scale, ssq)` pair (the
`norm = scale*Sqrt(ssq)` assignment inside the loop is only consumed
after the last iteration). -/
def Vec_Norm2_loop {α : Type} [LinearOrderedField α] (x : Vec α) (s : ℤ) :
    ℕ → ℤ → α × α → α × α
  | 0, _, p => p
  | n+1, i, (scale, ssq) =>
    let xi := |x (i*s)|
    if xi ≠ 0 then
      if scale ≥ xi then Vec_Norm2_loop x s n (i+1) (scale, ssq + sqrC (xi/scale))
      else Vec_Norm2_loop x s n (i+1) (xi, 1 + ssq * sqrC (scale/xi))
    else Vec_Norm2_loop x s n (i+1) (scale, ssq)

/-- `Vec_Norm2( n, x_, x_s )`: numerically stable Euclidean norm
(`isExact` is false, so the scaled branch is the live one). -/
def Vec_Norm2 {α : Type} [LinearOrderedField α] (ops : ScalarOps α) (n : ℕ)
    (x : Vec α) (s : ℤ) : α :=
  if n = 0 then 0
  else if n = 1 then |x 0|
  else
    let p := Vec_Norm2_loop x s n 0 (0, 1)
    p.1 * ops.sqrtFn p.2

/-! ## `Rfl_VecGen` (`dlarfg`) -/

/-- The underflow-rescaling `do/while` loop of `Rfl_VecGen`:
`++knt; x *= 1/safmin; beta *= 1/safmin; alpha *= 1/safmin` while
`|beta| < safmin && knt < 20`.  Returns `(beta, alpha, x, knt)`.  The
`knt < 20` condition bounds the trip count, so fuel `20` is never
exhausted. -/
def Rfl_VecGen_scaleLoop {α : Type} [LinearOrderedField α] (ops : ScalarOps α)
    (n1 : ℕ) (xs : ℤ) : ℕ → α → α → Vec α → ℕ → α × α × Vec α × ℕ
  | fuel, beta, alpha, x, knt =>
    let rsafmn := invC ops.safmin
    let knt1 := knt + 1
    let x1 := Vec_Scale n1 rsafmn x xs
    let beta1 := beta * rsafmn
    let alpha1 := alpha * rsafmn
    if |beta1| < ops.safmin ∧ knt1 < 20 then
      match fuel with
      | 0 => (beta1, alpha1, x1, knt1)
      | fuel'+1 => Rfl_VecGen_scaleLoop ops n1 xs fuel' beta1 alpha1 x1 knt1
    else (beta1, alpha1, x1, knt1)

/-- `Rfl_VecGen( n, alpha, x_, x_s, tau )`: generate an elementary
reflector `H = I - tau*[1;v]*[1;~v]` with `H*[alpha;x] = [beta;0]`.
Returns the final `(alpha, x, tau)` (`alpha` is overwritten with the
un-scaled `beta`; for `n = 0` nothing is touched, so the incoming `tau`
is returned). -/
def Rfl_VecGen {α : Type} [LinearOrderedField α] (ops : ScalarOps α) (n : ℕ)
    (alpha : α) (x : Vec α) (xs : ℤ) (tau : α) : α × Vec α × α :=
  if n = 0 then (alpha, x, tau)
  else if n = 1 then (alpha, x, 0)
  else
    let xnorm := Vec_Norm2 ops (n-1) x xs
    if xnorm = 0 then (alpha, x, 0)
    else
      let beta0 := -copySignC (ops.hypotFn alpha xnorm) alpha
      let q : α × α × Vec α × ℕ :=
        if |beta0| < ops.safmin then
          let q0 := Rfl_VecGen_scaleLoop ops (n-1) xs 20 beta0 alpha x 0
          let xnorm1 := Vec_Norm2 ops (n-1) q0.2.2.1 xs
          let beta1 := -copySignC (ops.hypotFn q0.2.1 xnorm1) q0.2.1
          (beta1, q0.2.1, q0.2.2.1, q0.2.2.2)
        else (beta0, alpha, x, 0)
      let beta := q.1
      let alpha1 := q.2.1
      let x1 := q.2.2.1
      let knt := q.2.2.2
      let tau1 := (beta - alpha1) / beta
      let x2 := Vec_Scale (n-1) (invC (alpha1 - beta)) x1 xs
      -- for( j = 0; j < knt; ++j ) beta *= safmin
      let beta2 := beta * ops.safmin ^ knt
      (beta2, x2, tau1)

/-! ### Claim C2: the range of `tau` in exact arithmetic -/

/-- Invariant of the `Vec_Norm2` accumulation loop over the reals: the
pair stays componentwise nonnegative and `scale² · ssq` accumulates the
sum of squares of the visited entries. -/
theorem Vec_Norm2_loop_inv (x : Vec ℝ) (s : ℤ) :
    ∀ (n : ℕ) (i : ℤ) (scale ssq : ℝ), 0 ≤ scale → 0 ≤ ssq →
      0 ≤ (Vec_Norm2_loop x s n i (scale, ssq)).1 ∧
      0 ≤ (Vec_Norm2_loop x s n i (scale, ssq)).2 ∧
      (Vec_Norm2_loop x s n i (scale, ssq)).1 ^ 2 *
          (Vec_Norm2_loop x s n i (scale, ssq)).2 =
        scale ^ 2 * ssq + ∑ j in Finset.range n, x ((i + (j : ℤ)) * s) ^ 2 := by
  intro n
  induction n with
  | zero => intro i scale ssq h1 h2; simpa [Vec_Norm2_loop] using ⟨h1, h2⟩
  | succ n ih =>
    intro i scale ssq h1 h2
    have hsum : ∑ j in Finset.range (n+1), x ((i + (j : ℤ)) * s) ^ 2 =
        (∑ j in Finset.range n, x ((i + 1 + (j : ℤ)) * s) ^ 2) + x (i * s) ^ 2 := by
      rw [Finset.sum_range_succ']
      congr 1
      · refine Finset.sum_congr rfl ?_
        intro j _
        congr 2
        push_cast
        ring
      · congr 2
        push_cast
        ring
    rw [Vec_Norm2_loop]
    split_ifs with hxi hge
    · -- xi ≠ 0, scale ≥ xi
      have hx0 : (0:ℝ) < |x (i * s)| := lt_of_le_of_ne (abs_nonneg _) (Ne.symm hxi)
      have hs0 : (0:ℝ) < scale := lt_of_lt_of_le hx0 hge
      obtain ⟨a1, a2, a3⟩ := ih (i+1) scale (ssq + sqrC (|x (i * s)| / scale)) h1
        (by
          have : 0 ≤ sqrC (|x (i * s)| / scale) := by
            rw [sqrC]; positivity
          linarith)
      refine ⟨a1, a2, ?_⟩
      rw [a3, hsum, sqrC]
      have key : scale ^ 2 * (ssq + |x (i * s)| / scale * (|x (i * s)| / scale)) =
          scale ^ 2 * ssq + x (i * s) ^ 2 := by
        have hs' : scale ≠ 0 := ne_of_gt hs0
        field_simp
        ring
      rw [key]
      ring
    · -- xi ≠ 0, scale < xi
      have hx0 : (0:ℝ) < |x (i * s)| := lt_of_le_of_ne (abs_nonneg _) (Ne.symm hxi)
      obtain ⟨a1, a2, a3⟩ := ih (i+1) |x (i * s)| (1 + ssq * sqrC (scale / |x (i * s)|))
        (abs_nonneg _)
        (by
          have : 0 ≤ ssq * sqrC (scale / |x (i * s)|) := by
            rw [sqrC]; positivity
          linarith)
      refine ⟨a1, a2, ?_⟩
      rw [a3, hsum, sqrC]
      have key : |x (i * s)| ^ 2 * (1 + ssq * (scale / |x (i * s)| * (scale / |x (i * s)|))) =
          scale ^ 2 * ssq + x (i * s) ^ 2 := by
        have hx2 : x (i * s) ≠ 0 := abs_ne_zero.mp hxi
        field_simp
        ring
      rw [key]
      ring
    · -- xi = 0
      have hx0 : x (i * s) = 0 := by
        have := abs_eq_zero.mp (not_not.mp hxi)
        exact this
      obtain ⟨a1, a2, a3⟩ := ih (i+1) scale ssq h1 h2
      refine ⟨a1, a2, ?_⟩
      rw [a3, hsum, hx0]
      ring

/-- `Vec_Norm2` in exact arithmetic is the Euclidean norm of the sampled
entries. -/
theorem Vec_Norm2_realOps (n : ℕ) (x : Vec ℝ) (s : ℤ) :
    Vec_Norm2 realOps n x s =
      Real.sqrt (∑ j in Finset.range n, x ((j : ℤ) * s) ^ 2) := by
  rw [Vec_Norm2]
  split_ifs with h0 h1
  · subst h0; simp
  · subst h1
    simp [Real.sqrt_sq_eq_abs]
  · obtain ⟨a1, a2, a3⟩ := Vec_Norm2_loop_inv x s n 0 0 1 le_rfl zero_le_one
    simp only [] at a3 ⊢
    have : ∑ j in Finset.range n, x ((0 + (j : ℤ)) * s) ^ 2 =
        ∑ j in Finset.range n, x ((j : ℤ) * s) ^ 2 := by
      refine Finset.sum_congr rfl ?_
      intro j _; norm_num
    rw [this] at a3
    norm_num at a3
    have hops : realOps.sqrtFn = Real.sqrt := rfl
    rw [hops, ← a3, Real.sqrt_mul (sq_nonneg _), Real.sqrt_sq a1]

/-- `Vec_Norm2` in exact arithmetic is nonnegative. -/
theorem Vec_Norm2_realOps_nonneg (n : ℕ) (x : Vec ℝ) (s : ℤ) :
    0 ≤ Vec_Norm2 realOps n x s := by
  rw [Vec_Norm2_realOps]; exact Real.sqrt_nonneg _

/-- `Vec_Norm2` in exact arithmetic vanishes exactly when every sampled
entry vanishes. -/
theorem Vec_Norm2_realOps_eq_zero_iff (n : ℕ) (x : Vec ℝ) (s : ℤ) :
    Vec_Norm2 realOps n x s = 0 ↔ ∀ j : ℕ, j < n → x ((j : ℤ) * s) = 0 := by
  rw [Vec_Norm2_realOps, Real.sqrt_eq_zero']
  constructor
  · intro h j hj
    have hsum : ∑ j in Finset.range n, x ((j : ℤ) * s) ^ 2 = 0 :=
      le_antisymm h (Finset.sum_nonneg fun _ _ => sq_nonneg _)
    have := (Finset.sum_eq_zero_iff_of_nonneg fun _ _ => sq_nonneg _).mp hsum
      j (Finset.mem_range.mpr hj)
    exact pow_eq_zero_iff two_ne_zero |>.mp this
  · intro h
    have : ∑ j in Finset.range n, x ((j : ℤ) * s) ^ 2 = 0 := by
      refine Finset.sum_eq_zero ?_
      intro j hj
      rw [h j (Finset.mem_range.mp hj)]
      ring
    rw [this]

/-- `Vec_Scale` with a nonzero factor preserves the zero set of the
buffer (every touched cell is multiplied by the factor one or more
times). -/
theorem Vec_Scale_aux_zero_iff {α : Type} [LinearOrderedField α] (alpha : α)
    (ha : alpha ≠ 0) (s : ℤ) :
    ∀ (n : ℕ) (k : ℤ) (x : Vec α) (y : ℤ),
      Vec_Scale_aux alpha s n k x y = 0 ↔ x y = 0 := by
  intro n
  induction n with
  | zero => intro k x y; rw [Vec_Scale_aux]
  | succ n ih =>
    intro k x y
    rw [Vec_Scale_aux, ih]
    rcases eq_or_ne y (k * s) with hy | hy
    · subst hy
      rw [wr_same, mul_comm, mul_eq_zero]
      simp [ha]
    · rw [wr_other _ _ _ _ hy]

/-- `Vec_Scale` with a nonzero factor preserves the zero set. -/
theorem Vec_Scale_zero_iff {α : Type} [LinearOrderedField α] (n : ℕ)
    (alpha : α) (ha : alpha ≠ 0) (x : Vec α) (s : ℤ) (y : ℤ) :
    Vec_Scale n alpha x s y = 0 ↔ x y = 0 := by
  rw [Vec_Scale]
  simp only [if_neg ha]
  split_ifs with h1
  · exact Iff.rfl
  · exact Vec_Scale_aux_zero_iff alpha ha s n 0 x y

/-- The rescaling loop of `Rfl_VecGen` preserves the zero set of the
tail vector (it only ever multiplies entries by `1/safmin ≠ 0`). -/
theorem Rfl_VecGen_scaleLoop_zero_iff {α : Type} [LinearOrderedField α]
    (ops : ScalarOps α) (hs : invC ops.safmin ≠ 0) (n1 : ℕ) (xs : ℤ) :
    ∀ (fuel : ℕ) (beta alpha : α) (x : Vec α) (knt : ℕ) (y : ℤ),
      (Rfl_VecGen_scaleLoop ops n1 xs fuel beta alpha x knt).2.2.1 y = 0 ↔
        x y = 0 := by
  intro fuel
  induction fuel with
  | zero =>
    intro beta alpha x knt y
    rw [Rfl_VecGen_scaleLoop]
    split_ifs
    · exact Vec_Scale_zero_iff n1 _ hs x xs y
    · exact Vec_Scale_zero_iff n1 _ hs x xs y
  | succ fuel ih =>
    intro beta alpha x knt y
    rw [Rfl_VecGen_scaleLoop]
    split_ifs
    · exact (ih _ _ _ _ y).trans (Vec_Scale_zero_iff n1 _ hs x xs y)
    · exact Vec_Scale_zero_iff n1 _ hs x xs y

/-- Core bound of `Rfl_VecGen`: with `h = Hypot(a, w) = √(a² + w²)` and
`b = -CopySign(h, a)`, if `w > 0` then `tau = (b - a)/b` lies in `[1, 2]`. -/
theorem Rfl_VecGen_tau_core (a w : ℝ) (hw : 0 < w) :
    1 ≤ (-copySignC (realOps.hypotFn a w) a - a) / -copySignC (realOps.hypotFn a w) a ∧
      (-copySignC (realOps.hypotFn a w) a - a) / -copySignC (realOps.hypotFn a w) a ≤ 2 := by
  have hyp : realOps.hypotFn a w = Real.sqrt (a ^ 2 + w ^ 2) := rfl
  rw [hyp]
  set h := Real.sqrt (a ^ 2 + w ^ 2) with hh
  have h0 : 0 < h := Real.sqrt_pos.mpr (by positivity)
  have habs : |a| < h := by
    have hlt : a ^ 2 < a ^ 2 + w ^ 2 := by nlinarith
    calc |a| = Real.sqrt (a ^ 2) := by rw [Real.sqrt_sq_eq_abs]
    _ < h := Real.sqrt_lt_sqrt (sq_nonneg a) hlt
  rw [copySignC]
  split_ifs with hneg
  · -- a < 0 : b = -(-|h|) = h
    rw [abs_of_pos h0]
    have hb : -(-h) - a = h - a := by ring
    rw [hb, neg_neg]
    constructor
    · rw [le_div_iff h0]; linarith
    · rw [div_le_iff h0]; have := neg_abs_le a; linarith
  · -- a ≥ 0 : b = -h
    rw [abs_of_pos h0]
    have ha : 0 ≤ a := not_lt.mp hneg
    have hx : (-h - a) / -h = (h + a) / h := by
      rw [show -h - a = -(h + a) by ring, neg_div_neg_eq]
    rw [hx]
    constructor
    · rw [le_div_iff h0]; linarith
    · rw [div_le_iff h0]; have := le_abs_self a; linarith

/-- C2: in exact arithmetic the scalar `tau` produced by `Rfl_VecGen`
lies in `[0, 2]`: `n = 0` is a no-op that leaves the incoming `tau`
untouched, `n = 1` and the all-zero-tail cases set `tau = 0` (the
identity transform), and in the non-trivial case (some sampled tail
entry nonzero) `tau = (beta - alpha)/beta` lies in `[1, 2]`. -/
theorem C2_rflvecgen_tau_range (n : ℕ) (alpha : ℝ) (x : Vec ℝ) (xs : ℤ) (tau : ℝ) :
    (Rfl_VecGen realOps 0 alpha x xs tau).2.2 = tau ∧
    (Rfl_VecGen realOps 1 alpha x xs tau).2.2 = 0 ∧
    (2 ≤ n → (∀ j : ℕ, j < n - 1 → x ((j : ℤ) * xs) = 0) →
      (Rfl_VecGen realOps n alpha x xs tau).2.2 = 0) ∧
    (2 ≤ n → ∀ j : ℕ, j < n - 1 → x ((j : ℤ) * xs) ≠ 0 →
      1 ≤ (Rfl_VecGen realOps n alpha x xs tau).2.2 ∧
        (Rfl_VecGen realOps n alpha x xs tau).2.2 ≤ 2) := by
  refine ⟨rfl, rfl, ?_, ?_⟩
  · intro hn hz
    rw [Rfl_VecGen, if_neg (by omega : ¬n = 0), if_neg (by omega : ¬n = 1)]
    rw [if_pos ((Vec_Norm2_realOps_eq_zero_iff (n-1) x xs).mpr hz)]
  · intro hn j hj hxj
    have hN0 : Vec_Norm2 realOps (n-1) x xs ≠ 0 := by
      intro h
      exact hxj ((Vec_Norm2_realOps_eq_zero_iff (n-1) x xs).mp h j hj)
    have hNpos : 0 < Vec_Norm2 realOps (n-1) x xs :=
      lt_of_le_of_ne (Vec_Norm2_realOps_nonneg _ _ _) (Ne.symm hN0)
    rw [Rfl_VecGen, if_neg (by omega : ¬n = 0), if_neg (by omega : ¬n = 1), if_neg hN0]
    simp only []
    split_ifs with hb
    · -- the underflow-rescaling branch
      have hs : invC realOps.safmin ≠ 0 := by
        rw [invC]
        have : (0:ℝ) < realOps.safmin := by rw [realOps]; positivity
        positivity
      have hx1 : (Rfl_VecGen_scaleLoop realOps (n-1) xs 20
          (-copySignC (realOps.hypotFn alpha (Vec_Norm2 realOps (n-1) x xs)) alpha)
          alpha x 0).2.2.1 ((j : ℤ) * xs) ≠ 0 := by
        intro h
        exact hxj ((Rfl_VecGen_scaleLoop_zero_iff realOps hs (n-1) xs 20 _ _ x 0
          ((j : ℤ) * xs)).mp h)
      have hN1 : Vec_Norm2 realOps (n-1)
          (Rfl_VecGen_scaleLoop realOps (n-1) xs 20
            (-copySignC (realOps.hypotFn alpha (Vec_Norm2 realOps (n-1) x xs)) alpha)
            alpha x 0).2.2.1 xs ≠ 0 := by
        intro h
        exact hx1 ((Vec_Norm2_realOps_eq_zero_iff (n-1) _ xs).mp h j hj)
      have hN1pos : 0 < Vec_Norm2 realOps (n-1)
          (Rfl_VecGen_scaleLoop realOps (n-1) xs 20
            (-copySignC (realOps.hypotFn alpha (Vec_Norm2 realOps (n-1) x xs)) alpha)
            alpha x 0).2.2.1 xs :=
        lt_of_le_of_ne (Vec_Norm2_realOps_nonneg _ _ _) (Ne.symm hN1)
      exact Rfl_VecGen_tau_core _ _ hN1pos
    · exact Rfl_VecGen_tau_core alpha _ hNpos

theorem C2_rflvecgen_tau_range_witness :
    1 ≤ (Rfl_VecGen realOps 2 3 (fun i : ℤ => if i = 0 then (4:ℝ) else 0) 1 7).2.2 ∧
      (Rfl_VecGen realOps 2 3 (fun i : ℤ => if i = 0 then (4:ℝ) else 0) 1 7).2.2 ≤ 2 :=
  (C2_rflvecgen_tau_range 2 3 (fun i : ℤ => if i = 0 then (4:ℝ) else 0) 1 7).2.2.2
    (by norm_num) 0 (by norm_num) (by norm_num)


/-! ## `Syt_EigQR` (`dsterf`-style eigenvalues-only solver)

Loop bounds used by the model:
  * the outer split/deflate loop advances the cursor `k1` by at least one
    per iteration, so `n+1` iterations always suffice; the fuel-exhausted
    fallback returns the same `true`/state result as the loop's own exits
    and is never reached from `Solve`'s initial state;
  * each inner QL/QR iteration either advances `k` (bounded by the block
    size), or consumes one unit of the global iteration budget, or
    returns, so `(block size) + (remaining budget) + 1` iterations
    suffice;
  * the `do/while` loops of the collaborators (`Vec_Rescl`,
    `Aux_PlnRot2`), whose termination in the source rests on
    floating-point magnitude dynamics, run on the fixed fuel `loopFuel`.
-/

/-- Fuel for the model's fuel-bounded collaborator loops.  Any value at
least the (input-dependent) actual trip count reproduces the source
behavior; the claims proved below are insensitive to the choice. -/
def loopFuel : ℕ := 2 ^ 64

/-- The solver configuration (`Syt_EigQR::Config` = `Syt_EigVecQR::Config`):
a per-eigenvalue iteration budget and a relative deflation tolerance
(defaulting to machine epsilon). -/
structure EigConfig (α : Type) where
  maxIterationCount : ℕ
  zeroTol : α

/-- Observable outcome of `Syt_EigQR::Solve`: the boolean return value,
the final `d`/`e` buffers, the final global iteration count, and the
final split cursor `k1`. -/
structure EigQRResult (α : Type) where
  ok : Bool
  d : Vec α
  e : Vec α
  count : ℕ
  k1 : ℤ

/-- State after an inner QL/QR block iteration loop: whether the
`return false` path fired, plus `k`, `count`, `d`, `e`. -/
structure InnerState (α : Type) where
  failed : Bool
  k : ℤ
  count : ℕ
  d : Vec α
  e : Vec α

/-- The outer split scan shared verbatim by `Syt_EigQR::Solve` and
`Syt_EigVecQR::Solve`: advance `k0` while `|e[k0]|` is neither exactly
zero nor negligible against `zeroTol·√|d[k0]|·√|d[k0+1]|`; a negligible
entry is zeroed.  Fuel is the exact remaining range `(n-1) - k0`, so the
fuel-exhausted base case is the loop's own `k0 = n-1` exit. -/
def Syt_splitScan {α : Type} [LinearOrderedField α] (ops : ScalarOps α)
    (tol : α) (d : Vec α) : ℕ → ℤ → Vec α → ℤ × Vec α
  | 0, k0, e => (k0, e)
  | fuel+1, k0, e =>
    let ek0 := |e k0|
    if ek0 = 0 then (k0, e)
    else
      let errk0 := tol * ops.sqrtFn |d k0| * ops.sqrtFn |d (k0+1)|
      if ek0 ≤ errk0 then (k0, wr e k0 0)
      else Syt_splitScan ops tol d fuel (k0+1) e

/-- The small-subdiagonal scan of the QL iteration (shared verbatim by
both solvers): `k0` from `k` up, stopping at the first
`e[k0]² ≤ eps2·|d[k0]·d[k0+1]| + safmin`; with fuel `kend - k` the base
case is the loop's own `k0 = kend` exit. -/
def Syt_qlFind {α : Type} [LinearOrderedField α] (eps2 safmin : α)
    (d e : Vec α) : ℕ → ℤ → ℤ
  | 0, k0 => k0
  | fuel+1, k0 =>
    let ek02 := sqrC (e k0)
    let errk02 := eps2 * |d k0 * d (k0+1)|
    if ek02 ≤ errk02 + safmin then k0
    else Syt_qlFind eps2 safmin d e fuel (k0+1)

/-- The small-superdiagonal scan of the QR iteration (shared verbatim by
both solvers): `k0` from `k` down, stopping at the first
`e[k0-1]² ≤ eps2·|d[k0]·d[k0-1]| + safmin`. -/
def Syt_qrFind {α : Type} [LinearOrderedField α] (eps2 safmin : α)
    (d e : Vec α) : ℕ → ℤ → ℤ
  | 0, k0 => k0
  | fuel+1, k0 =>
    let ek02 := sqrC (e (k0-1))
    let errk02 := eps2 * |d k0 * d (k0-1)|
    if ek02 ≤ errk02 + safmin then k0
    else Syt_qrFind eps2 safmin d e fuel (k0-1)

/-- One implicit-shift QL sweep of `Syt_EigQR` (the rotation chain
`i = k0-1 .. k`), carrying `(d, e, g, c, s, p)`; returns the final
`(d, e, g, p)`.  Fuel is the exact trip count `k0 - k`. -/
def SytEigQR_qlSweep {α : Type} [LinearOrderedField α] (ops : ScalarOps α)
    (k0 : ℤ) : ℕ → ℤ → Vec α → Vec α → α → α → α → α → Vec α × Vec α × α × α
  | 0, _, d, e, g, _c, _s, p => (d, e, g, p)
  | fuel+1, i, d, e, g, c, s, p =>
    let f := s * e i
    let b := c * e i
    let t := Aux_PlnRot2 ops loopFuel g f
    let c1 := t.1
    let s1 := t.2.1
    let r1 := t.2.2
    let e1 := if i ≠ k0 - 1 then wr e (i+1) r1 else e
    let g1 := d (i+1) - p
    let r2 := (d i - g1) * s1 + 2 * c1 * b
    let p1 := s1 * r2
    let d1 := wr d (i+1) (g1 + p1)
    let g2 := c1 * r2 - b
    SytEigQR_qlSweep ops k0 fuel (i-1) d1 e1 g2 c1 s1 p1

/-- One implicit-shift QR sweep of `Syt_EigQR` (the rotation chain
`i = k0 .. k-1`, ascending). -/
def SytEigQR_qrSweep {α : Type} [LinearOrderedField α] (ops : ScalarOps α)
    (k0 : ℤ) : ℕ → ℤ → Vec α → Vec α → α → α → α → α → Vec α × Vec α × α × α
  | 0, _, d, e, g, _c, _s, p => (d, e, g, p)
  | fuel+1, i, d, e, g, c, s, p =>
    let f := s * e i
    let b := c * e i
    let t := Aux_PlnRot2 ops loopFuel g f
    let c1 := t.1
    let s1 := t.2.1
    let r1 := t.2.2
    let e1 := if i ≠ k0 then wr e (i-1) r1 else e
    let g1 := d i - p
    let r2 := (d (i+1) - g1) * s1 + 2 * c1 * b
    let p1 := s1 * r2
    let d1 := wr d i (g1 + p1)
    let g2 := c1 * r2 - b
    SytEigQR_qrSweep ops k0 fuel (i+1) d1 e1 g2 c1 s1 p1

/-- The QL iteration loop of `Syt_EigQR` over the active block
`[k, kend]`: isolate eigenvalues at negligible subdiagonals, solve 2×2
trailing blocks in closed form, otherwise form the Wilkinson-style shift
and run one QL sweep against the global budget. -/
def SytEigQR_qlLoop {α : Type} [LinearOrderedField α] (ops : ScalarOps α)
    (eps2 safmin : α) (maxCount : ℕ) (kend : ℤ) :
    ℕ → ℤ → ℕ → Vec α → Vec α → InnerState α
  | 0, k, count, d, e => ⟨false, k, count, d, e⟩
  | fuel+1, k, count, d, e =>
    if ¬(k ≤ kend) then ⟨false, k, count, d, e⟩
    else
      let k0 := if k ≠ kend then Syt_qlFind eps2 safmin d e (kend - k).toNat k else kend
      let e1 := if k0 < kend then wr e k0 0 else e
      if k0 = k then SytEigQR_qlLoop ops eps2 safmin maxCount kend fuel (k+1) count d e1
      else if k0 = k+1 then
        let q := Aux_Eig2 ops (d k) (e1 k) (d (k+1))
        let d1 := wr (wr d k q.1) (k+1) q.2
        let e2 := wr e1 k 0
        SytEigQR_qlLoop ops eps2 safmin maxCount kend fuel (k+2) count d1 e2
      else if count = maxCount then ⟨true, k, count, d, e1⟩
      else
        let f := (d (k+1) - d k) / (2 * e1 k)
        let r := ops.hypotFn f 1
        let g := d k0 - d k + (e1 k / (f + copySignC r f))
        let sw := SytEigQR_qlSweep ops k0 (k0 - k).toNat (k0-1) d e1 g 1 1 0
        let d2 := wr sw.1 k (sw.1 k - sw.2.2.2)
        let e3 := wr sw.2.1 k sw.2.2.1
        SytEigQR_qlLoop ops eps2 safmin maxCount kend fuel k (count+1) d2 e3

/-- The QR iteration loop of `Syt_EigQR` over the active block
`[kend, k]` (mirror of the QL loop with indices reversed). -/
def SytEigQR_qrLoop {α : Type} [LinearOrderedField α] (ops : ScalarOps α)
    (eps2 safmin : α) (maxCount : ℕ) (kend : ℤ) :
    ℕ → ℤ → ℕ → Vec α → Vec α → InnerState α
  | 0, k, count, d, e => ⟨false, k, count, d, e⟩
  | fuel+1, k, count, d, e =>
    if ¬(kend ≤ k) then ⟨false, k, count, d, e⟩
    else
      let k0 := if k ≠ kend then Syt_qrFind eps2 safmin d e (k - kend).toNat k else kend
      let e1 := if kend < k0 then wr e (k0-1) 0 else e
      if k0 = k then SytEigQR_qrLoop ops eps2 safmin maxCount kend fuel (k-1) count d e1
      else if k0 = k-1 then
        let q := Aux_Eig2 ops (d (k-1)) (e1 (k-1)) (d k)
        let d1 := wr (wr d (k-1) q.1) k q.2
        let e2 := wr e1 (k-1) 0
        SytEigQR_qrLoop ops eps2 safmin maxCount kend fuel (k-2) count d1 e2
      else if count = maxCount then ⟨true, k, count, d, e1⟩
      else
        let f := (d (k-1) - d k) / (2 * e1 (k-1))
        let r := ops.hypotFn f 1
        let g := d k0 - d k + (e1 (k-1) / (f + copySignC r f))
        let sw := SytEigQR_qrSweep ops k0 (k - k0).toNat k0 d e1 g 1 1 0
        let d2 := wr sw.1 k (sw.1 k - sw.2.2.2)
        let e3 := wr sw.2.1 (k-1) sw.2.2.1
        SytEigQR_qrLoop ops eps2 safmin maxCount kend fuel k (count+1) d2 e3

/-- The scaled-block phase of one outer iteration of `Syt_EigQR::Solve`
(everything after the two `Vec_Rescl` scaling calls): choose QL or QR by
comparing `|d[kend]|` with `|d[k]|`, run the block iteration, and on
success un-scale `d` over the original bounds `k1_prev .. kend_prev`.
`Sum.inl` is an immediate `return` from `Solve` (the non-convergence
path); `Sum.inr` carries the `(count, k1, d, e)` state into the next
outer iteration. -/
def SytEigQR_block {α : Type} [LinearOrderedField α] (ops : ScalarOps α)
    (eps2 safmin anorm scale : α) (maxCount : ℕ) (k kend k1p kendp k1n : ℤ)
    (count : ℕ) (d1 e2 : Vec α) :
    Except BadArgument ((EigQRResult α) ⊕ (ℕ × ℤ × Vec α × Vec α)) :=
  let kk : ℤ × ℤ := if |d1 kend| < |d1 k| then (kendp, k1p) else (k, kend)
  let k' := kk.1
  let kend' := kk.2
  if k' ≤ kend' then
    let r := SytEigQR_qlLoop ops eps2 safmin maxCount kend'
      ((kend' + 1 - k').toNat + (maxCount - count) + 1) k' count d1 e2
    if r.failed then .ok (.inl ⟨false, r.d, r.e, r.count, k1n⟩)
    else
      match Vec_Rescl ops loopFuel scale anorm (kendp - k1p + 1).toNat
          (shift r.d k1p) 1 with
      | .error b => .error b
      | .ok dres => .ok (.inr (r.count, k1n, shift dres (-k1p), r.e))
  else
    let r := SytEigQR_qrLoop ops eps2 safmin maxCount kend'
      ((k' - kend' + 1).toNat + (maxCount - count) + 1) k' count d1 e2
    if r.failed then .ok (.inl ⟨false, r.d, r.e, r.count, k1n⟩)
    else
      match Vec_Rescl ops loopFuel scale anorm (kendp - k1p + 1).toNat
          (shift r.d k1p) 1 with
      | .error b => .error b
      | .ok dres => .ok (.inr (r.count, k1n, shift dres (-k1p), r.e))

/-- One iteration of the outer split/deflate loop of `Syt_EigQR::Solve`
(the body of `while( count < maxCount )` after the cursor check): zero
the previous split point, scan for the next irreducible block `[k, kend]`,
skip size-1 or zero-norm blocks (`continue`, i.e. `Sum.inr`), otherwise
scale the block and hand it to `SytEigQR_block`.  The
`eps2`/`safmin`/`ssfmin`/`ssfmax` constants are pure and recomputed here
with their source definitions. -/
def SytEigQR_iter {α : Type} [LinearOrderedField α] (ops : ScalarOps α)
    (cfg : EigConfig α) (n : ℕ) (count : ℕ) (k1 : ℤ) (d e : Vec α) :
    Except BadArgument ((EigQRResult α) ⊕ (ℕ × ℤ × Vec α × Vec α)) :=
  let maxCount := n * cfg.maxIterationCount
  let eps2 := sqrC cfg.zeroTol
  let safmin := ops.safmin
  let safmax := invC safmin
  let ssfmin := ops.sqrtFn safmin / eps2
  let ssfmax := ops.sqrtFn safmax / 3
  let e0 := if 0 < k1 then wr e (k1-1) 0 else e
  let sc := Syt_splitScan ops cfg.zeroTol d (((n:ℤ)-1) - k1).toNat k1 e0
  let k0 := sc.1
  let e1 := sc.2
  let k := k1
  let k1p := k1
  let kend := k0
  let kendp := k0
  let k1n := k0 + 1
  if kend = k then .ok (.inr (count, k1n, d, e1))
  else
    let anorm := Syt_Norm ops .max (kend - k + 1).toNat (shift d k) (shift e1 k)
    if anorm = 0 then .ok (.inr (count, k1n, d, e1))
    else
      let scale := clampC anorm ssfmin ssfmax
      match Vec_Rescl ops loopFuel anorm scale (kend - k + 1).toNat (shift d k) 1 with
      | .error b => .error b
      | .ok dsub =>
        match Vec_Rescl ops loopFuel anorm scale (kend - k).toNat (shift e1 k) 1 with
        | .error b => .error b
        | .ok esub =>
          SytEigQR_block ops eps2 safmin anorm scale maxCount k kend k1p kendp k1n
            count (shift dsub (-k)) (shift esub (-k))

/-- The outer split/deflate loop of `Syt_EigQR::Solve`
(`while( count < maxCount )` with the `k1 > n-1` convergence break),
driving `SytEigQR_iter`. -/
def SytEigQR_outer {α : Type} [LinearOrderedField α] (ops : ScalarOps α)
    (cfg : EigConfig α) (n : ℕ) :
    ℕ → ℕ → ℤ → Vec α → Vec α → Except BadArgument (EigQRResult α)
  | 0, count, k1, d, e => .ok ⟨true, d, e, count, k1⟩
  | fuel+1, count, k1, d, e =>
    if ¬(count < n * cfg.maxIterationCount) then .ok ⟨true, d, e, count, k1⟩
    else if (n:ℤ) - 1 < k1 then .ok ⟨true, d, e, count, k1⟩
    else
      match SytEigQR_iter ops cfg n count k1 d e with
      | .error b => .error b
      | .ok (.inl r) => .ok r
      | .ok (.inr (count', k1', d', e')) => SytEigQR_outer ops cfg n fuel count' k1' d' e'

/-- `Syt_EigQR::Solve( n, d, e )`: eigenvalues of the symmetric
tridiagonal pair `(d, e)` by implicit-shift QL/QR iteration with
deflation.  `n = 0` returns `true` immediately. -/
def SytEigQR_Solve {α : Type} [LinearOrderedField α] (ops : ScalarOps α)
    (cfg : EigConfig α) (n : ℕ) (d e : Vec α) :
    Except BadArgument (EigQRResult α) :=
  if n = 0 then .ok ⟨true, d, e, 0, 0⟩
  else SytEigQR_outer ops cfg n (n+1) 0 0 d e

/-! ## `Syt_EigVecQR` (`dsteqr`-style eigenvalues+vectors solver)

Identical `d`/`e`/`count`/`k1` control and arithmetic as `Syt_EigQR`,
plus: the per-sweep rotation pairs are recorded in the two halves of the
caller's work buffer (`C = work`, `S = work + n`) and batch-applied to
the eigenvector matrix `Z` with `Mat_RotSeq`, and the 2×2 closed form is
`Aux_EigVec2` followed by a rotation application. -/

/-- Observable outcome of `Syt_EigVecQR::Solve`. -/
structure EigVecQRResult (α : Type) where
  ok : Bool
  d : Vec α
  e : Vec α
  z : Vec α
  work : Vec α
  count : ℕ
  k1 : ℤ

/-- The eigenvalues-only view of a `Syt_EigVecQR::Solve` outcome. -/
def EigVecQRResult.toQR {α : Type} (r : EigVecQRResult α) : EigQRResult α :=
  ⟨r.ok, r.d, r.e, r.count, r.k1⟩

/-- State after an inner QL/QR block iteration loop of `Syt_EigVecQR`. -/
structure InnerStateV (α : Type) where
  failed : Bool
  k : ℤ
  count : ℕ
  d : Vec α
  e : Vec α
  z : Vec α
  work : Vec α

/-- Apply an in-place block operation at pointer offset `off` of a
buffer (shift in, apply, shift back). -/
def onBlk {α : Type} (off : ℤ) (f : Vec α → Vec α) (A : Vec α) : Vec α :=
  shift (f (shift A off)) (-off)

/-- One implicit-shift QL sweep of `Syt_EigVecQR`: the same rotation
chain as `SytEigQR_qlSweep`, additionally recording `C[i] = c`,
`S[i] = -s` in the work buffer (`C = work`, `S = work + n`).  Returns
`(d, e, g, p, work)`. -/
def SytEigVecQR_qlSweep {α : Type} [LinearOrderedField α] (ops : ScalarOps α)
    (n : ℕ) (k0 : ℤ) :
    ℕ → ℤ → Vec α → Vec α → Vec α → α → α → α → α →
      Vec α × Vec α × α × α × Vec α
  | 0, _, d, e, work, g, _c, _s, p => (d, e, g, p, work)
  | fuel+1, i, d, e, work, g, c, s, p =>
    let f := s * e i
    let b := c * e i
    let t := Aux_PlnRot2 ops loopFuel g f
    let c1 := t.1
    let s1 := t.2.1
    let r1 := t.2.2
    let e1 := if i ≠ k0 - 1 then wr e (i+1) r1 else e
    let g1 := d (i+1) - p
    let r2 := (d i - g1) * s1 + 2 * c1 * b
    let p1 := s1 * r2
    let d1 := wr d (i+1) (g1 + p1)
    let g2 := c1 * r2 - b
    let work1 := wr (wr work i c1) ((n:ℤ) + i) (-s1)
    SytEigVecQR_qlSweep ops n k0 fuel (i-1) d1 e1 work1 g2 c1 s1 p1

/-- One implicit-shift QR sweep of `Syt_EigVecQR`, recording
`C[i] = c`, `S[i] = s`. -/
def SytEigVecQR_qrSweep {α : Type} [LinearOrderedField α] (ops : ScalarOps α)
    (n : ℕ) (k0 : ℤ) :
    ℕ → ℤ → Vec α → Vec α → Vec α → α → α → α → α →
      Vec α × Vec α × α × α × Vec α
  | 0, _, d, e, work, g, _c, _s, p => (d, e, g, p, work)
  | fuel+1, i, d, e, work, g, c, s, p =>
    let f := s * e i
    let b := c * e i
    let t := Aux_PlnRot2 ops loopFuel g f
    let c1 := t.1
    let s1 := t.2.1
    let r1 := t.2.2
    let e1 := if i ≠ k0 then wr e (i-1) r1 else e
    let g1 := d i - p
    let r2 := (d (i+1) - g1) * s1 + 2 * c1 * b
    let p1 := s1 * r2
    let d1 := wr d i (g1 + p1)
    let g2 := c1 * r2 - b
    let work1 := wr (wr work i c1) ((n:ℤ) + i) s1
    SytEigVecQR_qrSweep ops n k0 fuel (i+1) d1 e1 work1 g2 c1 s1 p1

/-- The QL iteration loop of `Syt_EigVecQR` over the active block
`[k, kend]`: as `SytEigQR_qlLoop`, with `Aux_EigVec2` plus a rotation
application on the 2×2 path and a batched `Mat_RotSeq` (`Side::Right`,
`Pivot::Var`, `Direct::Bwd`) after each sweep. -/
def SytEigVecQR_qlLoop {α : Type} [LinearOrderedField α] (ops : ScalarOps α)
    (lyt : MatLyt) (n : ℕ) (zld : ℤ) (eps2 safmin : α) (maxCount : ℕ)
    (kend : ℤ) :
    ℕ → ℤ → ℕ → Vec α → Vec α → Vec α → Vec α → InnerStateV α
  | 0, k, count, d, e, z, work => ⟨false, k, count, d, e, z, work⟩
  | fuel+1, k, count, d, e, z, work =>
    if ¬(k ≤ kend) then ⟨false, k, count, d, e, z, work⟩
    else
      let k0 := if k ≠ kend then Syt_qlFind eps2 safmin d e (kend - k).toNat k else kend
      let e1 := if k0 < kend then wr e k0 0 else e
      if k0 = k then
        SytEigVecQR_qlLoop ops lyt n zld eps2 safmin maxCount kend fuel
          (k+1) count d e1 z work
      else if k0 = k+1 then
        let q := Aux_EigVec2 ops (d k) (e1 k) (d (k+1))
        let d1 := wr (wr d k q.1) (k+1) q.2.1
        let work1 := wr (wr work k q.2.2.1) ((n:ℤ) + k) q.2.2.2
        let z1 := onBlk (lyt.matIdx 0 k zld)
          (fun zb => Mat_RotSeq lyt .right .var .bwd n 2
            (shift work1 k) (shift work1 ((n:ℤ) + k)) zb zld) z
        let e2 := wr e1 k 0
        SytEigVecQR_qlLoop ops lyt n zld eps2 safmin maxCount kend fuel
          (k+2) count d1 e2 z1 work1
      else if count = maxCount then ⟨true, k, count, d, e1, z, work⟩
      else
        let f := (d (k+1) - d k) / (2 * e1 k)
        let r := ops.hypotFn f 1
        let g := d k0 - d k + (e1 k / (f + copySignC r f))
        let sw := SytEigVecQR_qlSweep ops n k0 (k0 - k).toNat (k0-1) d e1 work g 1 1 0
        let d2 := wr sw.1 k (sw.1 k - sw.2.2.2.1)
        let e3 := wr sw.2.1 k sw.2.2.1
        let work2 := sw.2.2.2.2
        let nn := ((k0 - k) + 1).toNat
        let z1 := onBlk (lyt.matIdx 0 k zld)
          (fun zb => Mat_RotSeq lyt .right .var .bwd n nn
            (shift work2 k) (shift work2 ((n:ℤ) + k)) zb zld) z
        SytEigVecQR_qlLoop ops lyt n zld eps2 safmin maxCount kend fuel
          k (count+1) d2 e3 z1 work2

/-- The QR iteration loop of `Syt_EigVecQR` over the active block
`[kend, k]` (`Mat_RotSeq` applied with `Direct::Fwd`). -/
def SytEigVecQR_qrLoop {α : Type} [LinearOrderedField α] (ops : ScalarOps α)
    (lyt : MatLyt) (n : ℕ) (zld : ℤ) (eps2 safmin : α) (maxCount : ℕ)
    (kend : ℤ) :
    ℕ → ℤ → ℕ → Vec α → Vec α → Vec α → Vec α → InnerStateV α
  | 0, k, count, d, e, z, work => ⟨false, k, count, d, e, z, work⟩
  | fuel+1, k, count, d, e, z, work =>
    if ¬(kend ≤ k) then ⟨false, k, count, d, e, z, work⟩
    else
      let k0 := if k ≠ kend then Syt_qrFind eps2 safmin d e (k - kend).toNat k else kend
      let e1 := if kend < k0 then wr e (k0-1) 0 else e
      if k0 = k then
        SytEigVecQR_qrLoop ops lyt n zld eps2 safmin maxCount kend fuel
          (k-1) count d e1 z work
      else if k0 = k-1 then
        let q := Aux_EigVec2 ops (d (k-1)) (e1 (k-1)) (d k)
        let d1 := wr (wr d (k-1) q.1) k q.2.1
        let work1 := wr (wr work k q.2.2.1) ((n:ℤ) + k) q.2.2.2
        let z1 := onBlk (lyt.matIdx 0 (k-1) zld)
          (fun zb => Mat_RotSeq lyt .right .var .fwd n 2
            (shift work1 k) (shift work1 ((n:ℤ) + k)) zb zld) z
        let e2 := wr e1 (k-1) 0
        SytEigVecQR_qrLoop ops lyt n zld eps2 safmin maxCount kend fuel
          (k-2) count d1 e2 z1 work1
      else if count = maxCount then ⟨true, k, count, d, e1, z, work⟩
      else
        let f := (d (k-1) - d k) / (2 * e1 (k-1))
        let r := ops.hypotFn f 1
        let g := d k0 - d k + (e1 (k-1) / (f + copySignC r f))
        let sw := SytEigVecQR_qrSweep ops n k0 (k - k0).toNat k0 d e1 work g 1 1 0
        let d2 := wr sw.1 k (sw.1 k - sw.2.2.2.1)
        let e3 := wr sw.2.1 (k-1) sw.2.2.1
        let work2 := sw.2.2.2.2
        let nn := ((k - k0) + 1).toNat
        let z1 := onBlk (lyt.matIdx 0 k0 zld)
          (fun zb => Mat_RotSeq lyt .right .var .fwd n nn
            (shift work2 k0) (shift work2 ((n:ℤ) + k0)) zb zld) z
        SytEigVecQR_qrLoop ops lyt n zld eps2 safmin maxCount kend fuel
          k (count+1) d2 e3 z1 work2

/-- The scaled-block phase of one outer iteration of
`Syt_EigVecQR::Solve` (same text as `SytEigQR_block` on
`d`/`e`/`count`, threading `Z` and `work` through the block loops). -/
def SytEigVecQR_block {α : Type} [LinearOrderedField α] (ops : ScalarOps α)
    (lyt : MatLyt) (n : ℕ) (zld : ℤ) (eps2 safmin anorm scale : α)
    (maxCount : ℕ) (k kend k1p kendp k1n : ℤ) (count : ℕ) (d1 e2 z work : Vec α) :
    Except BadArgument ((EigVecQRResult α) ⊕ (ℕ × ℤ × Vec α × Vec α × Vec α × Vec α)) :=
  let kk : ℤ × ℤ := if |d1 kend| < |d1 k| then (kendp, k1p) else (k, kend)
  let k' := kk.1
  let kend' := kk.2
  if k' ≤ kend' then
    let r := SytEigVecQR_qlLoop ops lyt n zld eps2 safmin maxCount kend'
      ((kend' + 1 - k').toNat + (maxCount - count) + 1) k' count d1 e2 z work
    if r.failed then .ok (.inl ⟨false, r.d, r.e, r.z, r.work, r.count, k1n⟩)
    else
      match Vec_Rescl ops loopFuel scale anorm (kendp - k1p + 1).toNat
          (shift r.d k1p) 1 with
      | .error b => .error b
      | .ok dres => .ok (.inr (r.count, k1n, shift dres (-k1p), r.e, r.z, r.work))
  else
    let r := SytEigVecQR_qrLoop ops lyt n zld eps2 safmin maxCount kend'
      ((k' - kend' + 1).toNat + (maxCount - count) + 1) k' count d1 e2 z work
    if r.failed then .ok (.inl ⟨false, r.d, r.e, r.z, r.work, r.count, k1n⟩)
    else
      match Vec_Rescl ops loopFuel scale anorm (kendp - k1p + 1).toNat
          (shift r.d k1p) 1 with
      | .error b => .error b
      | .ok dres => .ok (.inr (r.count, k1n, shift dres (-k1p), r.e, r.z, r.work))

/-- One iteration of the outer split/deflate loop of
`Syt_EigVecQR::Solve` (same text as `SytEigQR_iter` on `d`/`e`/`count`,
threading `Z` and `work`). -/
def SytEigVecQR_iter {α : Type} [LinearOrderedField α] (ops : ScalarOps α)
    (lyt : MatLyt) (cfg : EigConfig α) (n : ℕ) (zld : ℤ) (count : ℕ) (k1 : ℤ)
    (d e z work : Vec α) :
    Except BadArgument ((EigVecQRResult α) ⊕ (ℕ × ℤ × Vec α × Vec α × Vec α × Vec α)) :=
  let maxCount := n * cfg.maxIterationCount
  let eps2 := sqrC cfg.zeroTol
  let safmin := ops.safmin
  let safmax := invC safmin
  let ssfmin := ops.sqrtFn safmin / eps2
  let ssfmax := ops.sqrtFn safmax / 3
  let e0 := if 0 < k1 then wr e (k1-1) 0 else e
  let sc := Syt_splitScan ops cfg.zeroTol d (((n:ℤ)-1) - k1).toNat k1 e0
  let k0 := sc.1
  let e1 := sc.2
  let k := k1
  let k1p := k1
  let kend := k0
  let kendp := k0
  let k1n := k0 + 1
  if kend = k then .ok (.inr (count, k1n, d, e1, z, work))
  else
    let anorm := Syt_Norm ops .max (kend - k + 1).toNat (shift d k) (shift e1 k)
    if anorm = 0 then .ok (.inr (count, k1n, d, e1, z, work))
    else
      let scale := clampC anorm ssfmin ssfmax
      match Vec_Rescl ops loopFuel anorm scale (kend - k + 1).toNat (shift d k) 1 with
      | .error b => .error b
      | .ok dsub =>
        match Vec_Rescl ops loopFuel anorm scale (kend - k).toNat (shift e1 k) 1 with
        | .error b => .error b
        | .ok esub =>
          SytEigVecQR_block ops lyt n zld eps2 safmin anorm scale maxCount k kend
            k1p kendp k1n count (shift dsub (-k)) (shift esub (-k)) z work

/-- The outer split/deflate loop of `Syt_EigVecQR::Solve`, driving
`SytEigVecQR_iter`. -/
def SytEigVecQR_outer {α : Type} [LinearOrderedField α] (ops : ScalarOps α)
    (lyt : MatLyt) (cfg : EigConfig α) (n : ℕ) (zld : ℤ) :
    ℕ → ℕ → ℤ → Vec α → Vec α → Vec α → Vec α →
      Except BadArgument (EigVecQRResult α)
  | 0, count, k1, d, e, z, work => .ok ⟨true, d, e, z, work, count, k1⟩
  | fuel+1, count, k1, d, e, z, work =>
    if ¬(count < n * cfg.maxIterationCount) then .ok ⟨true, d, e, z, work, count, k1⟩
    else if (n:ℤ) - 1 < k1 then .ok ⟨true, d, e, z, work, count, k1⟩
    else
      match SytEigVecQR_iter ops lyt cfg n zld count k1 d e z work with
      | .error b => .error b
      | .ok (.inl r) => .ok r
      | .ok (.inr (count', k1', d', e', z', work')) =>
        SytEigVecQR_outer ops lyt cfg n zld fuel count' k1' d' e' z' work'

/-- `Syt_EigVecQR::Solve( n, d, e, Z_, Z_ld, work )`: eigenvalues and
eigenvectors of the symmetric tridiagonal pair `(d, e)`, accumulating
rotations into `Z`.  `n = 0` returns `true` immediately. -/
def SytEigVecQR_Solve {α : Type} [LinearOrderedField α] (ops : ScalarOps α)
    (lyt : MatLyt) (cfg : EigConfig α) (n : ℕ) (d e z : Vec α) (zld : ℤ)
    (work : Vec α) : Except BadArgument (EigVecQRResult α) :=
  if n = 0 then .ok ⟨true, d, e, z, work, 0, 0⟩
  else SytEigVecQR_outer ops lyt cfg n zld (n+1) 0 0 d e z work

/-! ### Claim C1 -/

/-- C1, as stated, is false on the code: with `maxIterationCount = 0`
(global budget `n·0 = 0` already exhausted) and the genuinely coupled
2×2 input `d = (1,2)`, `e = (1)`, the outer `while( count < maxCount )`
loop exits immediately and `Solve` returns `true` — with the cursor still
at `k1 = 0 ≤ n-1` and `e[0] = 1` undeflated, i.e. success is reported
while an unprocessed block remains.  (The inner loops return `false` on
budget exhaustion, but the outer loop's exit path returns `true`
unconditionally.) -/
theorem C1_budget_exhausted_returns_true {α : Type} [LinearOrderedField α]
    (ops : ScalarOps α) :
    SytEigQR_Solve ops ⟨0, ops.epsilon⟩ 2
        (fun i => if i = 0 then 1 else 2) (fun _ => 1) =
      .ok ⟨true, (fun i => if i = 0 then 1 else 2), (fun _ => 1), 0, 0⟩ ∧
    (0 : ℤ) ≤ (2 : ℤ) - 1 ∧ (1 : α) ≠ 0 := by
  refine ⟨rfl, by decide, one_ne_zero⟩

/-! ### Claim C6 -/

/-- The split scan is immediate at an exactly-zero off-diagonal entry
(or at the end of the range). -/
theorem Syt_splitScan_zero {α : Type} [LinearOrderedField α] (ops : ScalarOps α)
    (tol : α) (d : Vec α) (fuel : ℕ) (k0 : ℤ) (e : Vec α)
    (h : fuel = 0 ∨ e k0 = 0) :
    Syt_splitScan ops tol d fuel k0 e = (k0, e) := by
  cases fuel with
  | zero => rfl
  | succ fuel =>
    rcases h with h | h
    · exact absurd h (Nat.succ_ne_zero fuel)
    · simp [Syt_splitScan, h]

/-- On an input whose off-diagonal entries are all exactly zero, every
iteration of the outer loop of `Syt_EigQR::Solve` just advances the
cursor: the result is `true` with `d` and `count` untouched. -/
theorem SytEigQR_outer_diagonal {α : Type} [LinearOrderedField α]
    (ops : ScalarOps α) (cfg : EigConfig α) (n : ℕ) (d : Vec α) :
    ∀ (fuel : ℕ) (count : ℕ) (k1 : ℤ) (e : Vec α),
      0 ≤ k1 →
      (∀ i : ℤ, 0 ≤ i → i < (n:ℤ) - 1 → e i = 0) →
      ∃ e' k1', SytEigQR_outer ops cfg n fuel count k1 d e =
        .ok ⟨true, d, e', count, k1'⟩ := by
  have iterlem : ∀ (count : ℕ) (k1 : ℤ) (e : Vec α), 0 ≤ k1 → k1 ≤ (n:ℤ) - 1 →
      (∀ i : ℤ, 0 ≤ i → i < (n:ℤ) - 1 → e i = 0) →
      ∃ e0, SytEigQR_iter ops cfg n count k1 d e = .ok (.inr (count, k1 + 1, d, e0)) ∧
        (∀ i : ℤ, 0 ≤ i → i < (n:ℤ) - 1 → e0 i = 0) := by
    intro count k1 e hk1 hk he
    have hk1n : k1 < (n:ℤ) - 1 ∨ k1 = (n:ℤ) - 1 := lt_or_eq_of_le hk
    -- the conditionally-zeroed entry keeps the all-zero hypothesis
    set e0 : Vec α := if 0 < k1 then wr e (k1-1) 0 else e with he0def
    have he0 : ∀ i : ℤ, 0 ≤ i → i < (n:ℤ) - 1 → e0 i = 0 := by
      intro i h0 hi
      by_cases hpos : 0 < k1
      · rw [he0def, if_pos hpos]
        by_cases hii : i = k1 - 1
        · simp [wr, hii]
        · rw [wr_other e (k1-1) i 0 hii]; exact he i h0 hi
      · rw [he0def, if_neg hpos]; exact he i h0 hi
    have hscan : Syt_splitScan ops cfg.zeroTol d (((n:ℤ)-1) - k1).toNat k1 e0 =
        (k1, e0) := by
      apply Syt_splitScan_zero
      rcases hk1n with hlt | heq
      · exact Or.inr (he0 k1 hk1 hlt)
      · left; simp [heq]
    refine ⟨e0, ?_, he0⟩
    simp only [SytEigQR_iter, hscan, ite_true, ite_false]
  intro fuel
  induction fuel with
  | zero => intro count k1 e _ _; exact ⟨e, k1, rfl⟩
  | succ fuel ih =>
    intro count k1 e hk1 he
    rw [SytEigQR_outer]
    by_cases hc : count < n * cfg.maxIterationCount
    · by_cases hk : (n:ℤ) - 1 < k1
      · simp [hc, hk]
      · push_neg at hk
        obtain ⟨e0, hiter, he0⟩ := iterlem count k1 e hk1 hk he
        simp only [hc, not_true_eq_false, if_false, ite_false, ite_true,
          not_false_eq_true]
        rw [if_neg (not_lt.mpr hk), hiter]
        exact ih count (k1 + 1) e0 (by omega) he0
    · simp [hc]

/-- C6: `Syt_EigQR::Solve` with `n = 0` is a no-op returning `true`, and
for every `n` and every pair whose off-diagonal entries are all exactly
zero (an already-diagonal input), `Solve` returns `true`, performs zero
QL/QR sweeps (the iteration counter stays at zero), and leaves every
entry of `d` unchanged. -/
theorem C6_diagonal_input_noop {α : Type} [LinearOrderedField α]
    (ops : ScalarOps α) (cfg : EigConfig α) (n : ℕ) (d e : Vec α)
    (he : ∀ i : ℤ, 0 ≤ i → i < (n:ℤ) - 1 → e i = 0) :
    ∃ r, SytEigQR_Solve ops cfg n d e = .ok r ∧
      r.ok = true ∧ r.count = 0 ∧ r.d = d := by
  unfold SytEigQR_Solve
  by_cases hn : n = 0
  · exact ⟨⟨true, d, e, 0, 0⟩, by simp [hn], rfl, rfl, rfl⟩
  · obtain ⟨e', k1', hrun⟩ := SytEigQR_outer_diagonal ops cfg n d (n+1) 0 0 e
      le_rfl he
    exact ⟨⟨true, d, e', 0, k1'⟩, by simp [hn, hrun], rfl, rfl, rfl⟩

/-- Witness for C6 at `n = 3`, `d = (5,6,7)`, `e ≡ 0`, in the exact
`Float64` interpretation with the default configuration. -/
theorem C6_diagonal_witness :
    ∃ r, SytEigQR_Solve realOps ⟨64, realOps.epsilon⟩ 3
        (fun (i : ℤ) => (i : ℝ) + 5) (fun _ => 0) = .ok r ∧
      r.ok = true ∧ r.count = 0 ∧ r.d = (fun (i : ℤ) => (i : ℝ) + 5) :=
  C6_diagonal_input_noop realOps ⟨64, realOps.epsilon⟩ 3
    (fun (i : ℤ) => (i : ℝ) + 5) (fun _ => 0) (fun _ _ _ => rfl)

/-! ### Claim C5: the two solvers compute identical eigenvalues

`Syt_EigVecQR::Solve` differs from `Syt_EigQR::Solve` only in effects on
`Z` and the work buffer (rotation recording/application) and in using
`Aux_EigVec2` — whose eigenvalue half is the shared `Aux_Eig2_vals` — on
the 2×2 path.  The following simulation lemmas show the
`(failed, k, count, d, e)` (resp. result) projections coincide step by
step. -/

/-- The eigenvalues-only view of an inner `Syt_EigVecQR` state. -/
def InnerStateV.toQ {α : Type} (v : InnerStateV α) : InnerState α :=
  ⟨v.failed, v.k, v.count, v.d, v.e⟩

/-- The QL sweeps of the two solvers agree on `(d, e, g, p)`. -/
theorem qlSweep_agree {α : Type} [LinearOrderedField α] (ops : ScalarOps α)
    (n : ℕ) (k0 : ℤ) : ∀ (fuel : ℕ) (i : ℤ) (d e work : Vec α) (g c s p : α),
    ((SytEigVecQR_qlSweep ops n k0 fuel i d e work g c s p).1,
     (SytEigVecQR_qlSweep ops n k0 fuel i d e work g c s p).2.1,
     (SytEigVecQR_qlSweep ops n k0 fuel i d e work g c s p).2.2.1,
     (SytEigVecQR_qlSweep ops n k0 fuel i d e work g c s p).2.2.2.1) =
      SytEigQR_qlSweep ops k0 fuel i d e g c s p := by
  intro fuel
  induction fuel with
  | zero => intro i d e work g c s p; rfl
  | succ fuel ih =>
    intro i d e work g c s p
    simp only [SytEigVecQR_qlSweep, SytEigQR_qlSweep]
    exact ih _ _ _ _ _ _ _ _

/-- The QR sweeps of the two solvers agree on `(d, e, g, p)`. -/
theorem qrSweep_agree {α : Type} [LinearOrderedField α] (ops : ScalarOps α)
    (n : ℕ) (k0 : ℤ) : ∀ (fuel : ℕ) (i : ℤ) (d e work : Vec α) (g c s p : α),
    ((SytEigVecQR_qrSweep ops n k0 fuel i d e work g c s p).1,
     (SytEigVecQR_qrSweep ops n k0 fuel i d e work g c s p).2.1,
     (SytEigVecQR_qrSweep ops n k0 fuel i d e work g c s p).2.2.1,
     (SytEigVecQR_qrSweep ops n k0 fuel i d e work g c s p).2.2.2.1) =
      SytEigQR_qrSweep ops k0 fuel i d e g c s p := by
  intro fuel
  induction fuel with
  | zero => intro i d e work g c s p; rfl
  | succ fuel ih =>
    intro i d e work g c s p
    simp only [SytEigVecQR_qrSweep, SytEigQR_qrSweep]
    exact ih _ _ _ _ _ _ _ _

/-- Componentwise reading of `qlSweep_agree`, stated as rewrite rules. -/
theorem qlSweep_agree_d {α : Type} [LinearOrderedField α] (ops : ScalarOps α)
    (n : ℕ) (k0 : ℤ) (fuel : ℕ) (i : ℤ) (d e work : Vec α) (g c s p : α) :
    (SytEigVecQR_qlSweep ops n k0 fuel i d e work g c s p).1 =
      (SytEigQR_qlSweep ops k0 fuel i d e g c s p).1 := by
  rw [← qlSweep_agree ops n k0 fuel i d e work g c s p]

/-- `e`-component of `qlSweep_agree`. -/
theorem qlSweep_agree_e {α : Type} [LinearOrderedField α] (ops : ScalarOps α)
    (n : ℕ) (k0 : ℤ) (fuel : ℕ) (i : ℤ) (d e work : Vec α) (g c s p : α) :
    (SytEigVecQR_qlSweep ops n k0 fuel i d e work g c s p).2.1 =
      (SytEigQR_qlSweep ops k0 fuel i d e g c s p).2.1 := by
  rw [← qlSweep_agree ops n k0 fuel i d e work g c s p]

/-- `g`-component of `qlSweep_agree`. -/
theorem qlSweep_agree_g {α : Type} [LinearOrderedField α] (ops : ScalarOps α)
    (n : ℕ) (k0 : ℤ) (fuel : ℕ) (i : ℤ) (d e work : Vec α) (g c s p : α) :
    (SytEigVecQR_qlSweep ops n k0 fuel i d e work g c s p).2.2.1 =
      (SytEigQR_qlSweep ops k0 fuel i d e g c s p).2.2.1 := by
  rw [← qlSweep_agree ops n k0 fuel i d e work g c s p]

/-- `p`-component of `qlSweep_agree`. -/
theorem qlSweep_agree_p {α : Type} [LinearOrderedField α] (ops : ScalarOps α)
    (n : ℕ) (k0 : ℤ) (fuel : ℕ) (i : ℤ) (d e work : Vec α) (g c s p : α) :
    (SytEigVecQR_qlSweep ops n k0 fuel i d e work g c s p).2.2.2.1 =
      (SytEigQR_qlSweep ops k0 fuel i d e g c s p).2.2.2 := by
  rw [← qlSweep_agree ops n k0 fuel i d e work g c s p]

/-- Componentwise reading of `qrSweep_agree`. -/
theorem qrSweep_agree_d {α : Type} [LinearOrderedField α] (ops : ScalarOps α)
    (n : ℕ) (k0 : ℤ) (fuel : ℕ) (i : ℤ) (d e work : Vec α) (g c s p : α) :
    (SytEigVecQR_qrSweep ops n k0 fuel i d e work g c s p).1 =
      (SytEigQR_qrSweep ops k0 fuel i d e g c s p).1 := by
  rw [← qrSweep_agree ops n k0 fuel i d e work g c s p]

/-- `e`-component of `qrSweep_agree`. -/
theorem qrSweep_agree_e {α : Type} [LinearOrderedField α] (ops : ScalarOps α)
    (n : ℕ) (k0 : ℤ) (fuel : ℕ) (i : ℤ) (d e work : Vec α) (g c s p : α) :
    (SytEigVecQR_qrSweep ops n k0 fuel i d e work g c s p).2.1 =
      (SytEigQR_qrSweep ops k0 fuel i d e g c s p).2.1 := by
  rw [← qrSweep_agree ops n k0 fuel i d e work g c s p]

/-- `g`-component of `qrSweep_agree`. -/
theorem qrSweep_agree_g {α : Type} [LinearOrderedField α] (ops : ScalarOps α)
    (n : ℕ) (k0 : ℤ) (fuel : ℕ) (i : ℤ) (d e work : Vec α) (g c s p : α) :
    (SytEigVecQR_qrSweep ops n k0 fuel i d e work g c s p).2.2.1 =
      (SytEigQR_qrSweep ops k0 fuel i d e g c s p).2.2.1 := by
  rw [← qrSweep_agree ops n k0 fuel i d e work g c s p]

/-- `p`-component of `qrSweep_agree`. -/
theorem qrSweep_agree_p {α : Type} [LinearOrderedField α] (ops : ScalarOps α)
    (n : ℕ) (k0 : ℤ) (fuel : ℕ) (i : ℤ) (d e work : Vec α) (g c s p : α) :
    (SytEigVecQR_qrSweep ops n k0 fuel i d e work g c s p).2.2.2.1 =
      (SytEigQR_qrSweep ops k0 fuel i d e g c s p).2.2.2 := by
  rw [← qrSweep_agree ops n k0 fuel i d e work g c s p]

/-- Eigenvalue components of `Aux_EigVec2` as rewrite rules. -/
theorem Aux_EigVec2_rt1 {α : Type} [LinearOrderedField α] (ops : ScalarOps α)
    (a b c : α) : (Aux_EigVec2 ops a b c).1 = (Aux_Eig2 ops a b c).1 := rfl

/-- Second eigenvalue component of `Aux_EigVec2`. -/
theorem Aux_EigVec2_rt2 {α : Type} [LinearOrderedField α] (ops : ScalarOps α)
    (a b c : α) : (Aux_EigVec2 ops a b c).2.1 = (Aux_Eig2 ops a b c).2 := rfl

/-- The QL block loops of the two solvers agree on
`(failed, k, count, d, e)`. -/
theorem qlLoop_agree {α : Type} [LinearOrderedField α] (ops : ScalarOps α)
    (lyt : MatLyt) (n : ℕ) (zld : ℤ) (eps2 safmin : α) (maxCount : ℕ)
    (kend : ℤ) : ∀ (fuel : ℕ) (k : ℤ) (count : ℕ) (d e z work : Vec α),
    (SytEigVecQR_qlLoop ops lyt n zld eps2 safmin maxCount kend fuel
        k count d e z work).toQ =
      SytEigQR_qlLoop ops eps2 safmin maxCount kend fuel k count d e := by
  intro fuel
  induction fuel with
  | zero => intro k count d e z work; rfl
  | succ fuel ih =>
    intro k count d e z work
    simp only [SytEigVecQR_qlLoop, SytEigQR_qlLoop, Aux_EigVec2_rt1, Aux_EigVec2_rt2,
      qlSweep_agree_d, qlSweep_agree_e, qlSweep_agree_g, qlSweep_agree_p]
    split_ifs <;> first
      | rfl
      | exact ih _ _ _ _ _ _

/-- The QR block loops of the two solvers agree on
`(failed, k, count, d, e)`. -/
theorem qrLoop_agree {α : Type} [LinearOrderedField α] (ops : ScalarOps α)
    (lyt : MatLyt) (n : ℕ) (zld : ℤ) (eps2 safmin : α) (maxCount : ℕ)
    (kend : ℤ) : ∀ (fuel : ℕ) (k : ℤ) (count : ℕ) (d e z work : Vec α),
    (SytEigVecQR_qrLoop ops lyt n zld eps2 safmin maxCount kend fuel
        k count d e z work).toQ =
      SytEigQR_qrLoop ops eps2 safmin maxCount kend fuel k count d e := by
  intro fuel
  induction fuel with
  | zero => intro k count d e z work; rfl
  | succ fuel ih =>
    intro k count d e z work
    simp only [SytEigVecQR_qrLoop, SytEigQR_qrLoop, Aux_EigVec2_rt1, Aux_EigVec2_rt2,
      qrSweep_agree_d, qrSweep_agree_e, qrSweep_agree_g, qrSweep_agree_p]
    split_ifs <;> first
      | rfl
      | exact ih _ _ _ _ _ _

/-- Componentwise readings of the inner-loop agreements, as rewrite
rules: `failed` component of the QL loops. -/
theorem qlLoop_agree_failed {α : Type} [LinearOrderedField α] (ops : ScalarOps α)
    (lyt : MatLyt) (n : ℕ) (zld : ℤ) (eps2 safmin : α) (maxCount : ℕ)
    (kend : ℤ) (fuel : ℕ) (k : ℤ) (count : ℕ) (d e z work : Vec α) :
    (SytEigVecQR_qlLoop ops lyt n zld eps2 safmin maxCount kend fuel
        k count d e z work).failed =
      (SytEigQR_qlLoop ops eps2 safmin maxCount kend fuel k count d e).failed := by
  rw [← qlLoop_agree ops lyt n zld eps2 safmin maxCount kend fuel k count d e z work]
  rfl

/-- `count` component of the QL-loop agreement. -/
theorem qlLoop_agree_count {α : Type} [LinearOrderedField α] (ops : ScalarOps α)
    (lyt : MatLyt) (n : ℕ) (zld : ℤ) (eps2 safmin : α) (maxCount : ℕ)
    (kend : ℤ) (fuel : ℕ) (k : ℤ) (count : ℕ) (d e z work : Vec α) :
    (SytEigVecQR_qlLoop ops lyt n zld eps2 safmin maxCount kend fuel
        k count d e z work).count =
      (SytEigQR_qlLoop ops eps2 safmin maxCount kend fuel k count d e).count := by
  rw [← qlLoop_agree ops lyt n zld eps2 safmin maxCount kend fuel k count d e z work]
  rfl

/-- `d` component of the QL-loop agreement. -/
theorem qlLoop_agree_d {α : Type} [LinearOrderedField α] (ops : ScalarOps α)
    (lyt : MatLyt) (n : ℕ) (zld : ℤ) (eps2 safmin : α) (maxCount : ℕ)
    (kend : ℤ) (fuel : ℕ) (k : ℤ) (count : ℕ) (d e z work : Vec α) :
    (SytEigVecQR_qlLoop ops lyt n zld eps2 safmin maxCount kend fuel
        k count d e z work).d =
      (SytEigQR_qlLoop ops eps2 safmin maxCount kend fuel k count d e).d := by
  rw [← qlLoop_agree ops lyt n zld eps2 safmin maxCount kend fuel k count d e z work]
  rfl

/-- `e` component of the QL-loop agreement. -/
theorem qlLoop_agree_e {α : Type} [LinearOrderedField α] (ops : ScalarOps α)
    (lyt : MatLyt) (n : ℕ) (zld : ℤ) (eps2 safmin : α) (maxCount : ℕ)
    (kend : ℤ) (fuel : ℕ) (k : ℤ) (count : ℕ) (d e z work : Vec α) :
    (SytEigVecQR_qlLoop ops lyt n zld eps2 safmin maxCount kend fuel
        k count d e z work).e =
      (SytEigQR_qlLoop ops eps2 safmin maxCount kend fuel k count d e).e := by
  rw [← qlLoop_agree ops lyt n zld eps2 safmin maxCount kend fuel k count d e z work]
  rfl

/-- `failed` component of the QR-loop agreement. -/
theorem qrLoop_agree_failed {α : Type} [LinearOrderedField α] (ops : ScalarOps α)
    (lyt : MatLyt) (n : ℕ) (zld : ℤ) (eps2 safmin : α) (maxCount : ℕ)
    (kend : ℤ) (fuel : ℕ) (k : ℤ) (count : ℕ) (d e z work : Vec α) :
    (SytEigVecQR_qrLoop ops lyt n zld eps2 safmin maxCount kend fuel
        k count d e z work).failed =
      (SytEigQR_qrLoop ops eps2 safmin maxCount kend fuel k count d e).failed := by
  rw [← qrLoop_agree ops lyt n zld eps2 safmin maxCount kend fuel k count d e z work]
  rfl

/-- `count` component of the QR-loop agreement. -/
theorem qrLoop_agree_count {α : Type} [LinearOrderedField α] (ops : ScalarOps α)
    (lyt : MatLyt) (n : ℕ) (zld : ℤ) (eps2 safmin : α) (maxCount : ℕ)
    (kend : ℤ) (fuel : ℕ) (k : ℤ) (count : ℕ) (d e z work : Vec α) :
    (SytEigVecQR_qrLoop ops lyt n zld eps2 safmin maxCount kend fuel
        k count d e z work).count =
      (SytEigQR_qrLoop ops eps2 safmin maxCount kend fuel k count d e).count := by
  rw [← qrLoop_agree ops lyt n zld eps2 safmin maxCount kend fuel k count d e z work]
  rfl

/-- `d` component of the QR-loop agreement. -/
theorem qrLoop_agree_d {α : Type} [LinearOrderedField α] (ops : ScalarOps α)
    (lyt : MatLyt) (n : ℕ) (zld : ℤ) (eps2 safmin : α) (maxCount : ℕ)
    (kend : ℤ) (fuel : ℕ) (k : ℤ) (count : ℕ) (d e z work : Vec α) :
    (SytEigVecQR_qrLoop ops lyt n zld eps2 safmin maxCount kend fuel
        k count d e z work).d =
      (SytEigQR_qrLoop ops eps2 safmin maxCount kend fuel k count d e).d := by
  rw [← qrLoop_agree ops lyt n zld eps2 safmin maxCount kend fuel k count d e z work]
  rfl

/-- `e` component of the QR-loop agreement. -/
theorem qrLoop_agree_e {α : Type} [LinearOrderedField α] (ops : ScalarOps α)
    (lyt : MatLyt) (n : ℕ) (zld : ℤ) (eps2 safmin : α) (maxCount : ℕ)
    (kend : ℤ) (fuel : ℕ) (k : ℤ) (count : ℕ) (d e z work : Vec α) :
    (SytEigVecQR_qrLoop ops lyt n zld eps2 safmin maxCount kend fuel
        k count d e z work).e =
      (SytEigQR_qrLoop ops eps2 safmin maxCount kend fuel k count d e).e := by
  rw [← qrLoop_agree ops lyt n zld eps2 safmin maxCount kend fuel k count d e z work]
  rfl

/-! ### Claim C5: `Syt_EigVecQR::Solve` refines `Syt_EigQR::Solve` on `(ok, d, e, count, k1)`

The two solvers' `d`/`e` control flow and arithmetic are textually
identical; the vectors solver additionally threads `z` and `work`.  The
agreement is proved by simulation, level by level: sweeps, inner loops,
2×2 closed forms, per-block step, outer loop, `Solve`. -/


/-- Projection of a `Syt_EigVecQR` step outcome onto the eigenvalues-only
solver's step outcome. -/
def stepToQR {α : Type}
    (x : Except BadArgument ((EigVecQRResult α) ⊕ (ℕ × ℤ × Vec α × Vec α × Vec α × Vec α))) :
    Except BadArgument ((EigQRResult α) ⊕ (ℕ × ℤ × Vec α × Vec α)) :=
  match x with
  | .error b => .error b
  | .ok (.inl r) => .ok (.inl r.toQR)
  | .ok (.inr (count, k1, d, e, _z, _work)) => .ok (.inr (count, k1, d, e))

set_option maxHeartbeats 1000000 in
theorem SytEig_block_agree {α : Type} [LinearOrderedField α] (ops : ScalarOps α)
    (lyt : MatLyt) (n : ℕ) (zld : ℤ) (eps2 safmin anorm scale : α)
    (maxCount : ℕ) (k kend k1p kendp k1n : ℤ) (count : ℕ) (d1 e2 z work : Vec α) :
    stepToQR (SytEigVecQR_block ops lyt n zld eps2 safmin anorm scale maxCount
        k kend k1p kendp k1n count d1 e2 z work) =
      SytEigQR_block ops eps2 safmin anorm scale maxCount k kend k1p kendp k1n
        count d1 e2 := by
  simp only [SytEigVecQR_block, SytEigQR_block, qlLoop_agree_failed,
    qlLoop_agree_count, qlLoop_agree_d, qlLoop_agree_e, qrLoop_agree_failed,
    qrLoop_agree_count, qrLoop_agree_d, qrLoop_agree_e]
  split_ifs
  all_goals try rfl
  all_goals (split <;> rfl)

set_option maxHeartbeats 1000000 in
theorem SytEig_iter_agree {α : Type} [LinearOrderedField α] (ops : ScalarOps α)
    (lyt : MatLyt) (cfg : EigConfig α) (n : ℕ) (zld : ℤ) (count : ℕ) (k1 : ℤ)
    (d e z work : Vec α) :
    stepToQR (SytEigVecQR_iter ops lyt cfg n zld count k1 d e z work) =
      SytEigQR_iter ops cfg n count k1 d e := by
  rw [SytEigVecQR_iter, SytEigQR_iter]
  split
  all_goals (
    split
    · rfl
    · simp only []
      split
      · rfl
      · split <;> rename_i x1 h1 <;> rw [h1]
        · rfl
        · split <;> rename_i x2 h2 <;> rw [h2]
          · rfl
          · exact SytEig_block_agree ops lyt n zld _ _ _ _ _ _ _ _ _ _ _ _ _ _ _)

theorem SytEig_outer_agree {α : Type} [LinearOrderedField α] (ops : ScalarOps α)
    (lyt : MatLyt) (cfg : EigConfig α) (n : ℕ) (zld : ℤ) :
    ∀ (fuel count : ℕ) (k1 : ℤ) (d e z work : Vec α),
      Except.map EigVecQRResult.toQR
          (SytEigVecQR_outer ops lyt cfg n zld fuel count k1 d e z work) =
        SytEigQR_outer ops cfg n fuel count k1 d e := by
  intro fuel
  induction fuel with
  | zero => intro count k1 d e z work; rfl
  | succ fuel ih =>
    intro count k1 d e z work
    rw [SytEigVecQR_outer, SytEigQR_outer]
    split_ifs
    all_goals try rfl
    all_goals (
      rw [← SytEig_iter_agree ops lyt cfg n zld count k1 d e z work]
      rcases hres : SytEigVecQR_iter ops lyt cfg n zld count k1 d e z work with
        b | (r | ⟨count2, k2, d2, e2, z2, work2⟩)
      · rfl
      · rfl
      · exact ih count2 k2 d2 e2 z2 work2)

/-- C5: running `Syt_EigQR::Solve` (eigenvalues only) and
`Syt_EigVecQR::Solve` (eigenvalues plus vectors, for any eigenvector
matrix `Z`, leading dimension, layout, and work buffer) on identical
copies of the same tridiagonal pair `(d, e)` with the same configuration
produces the same outcome on everything the two solvers share: the same
thrown error if any, and otherwise the same boolean, the same
eigenvalues in `d` (and the same `e`, iteration count and cursor) —
for every `n` and every scalar interpretation. -/
theorem C5_eigvec_values_agree {α : Type} [LinearOrderedField α] (ops : ScalarOps α)
    (lyt : MatLyt) (cfg : EigConfig α) (n : ℕ) (d e z : Vec α) (zld : ℤ)
    (work : Vec α) :
    Except.map EigVecQRResult.toQR
        (SytEigVecQR_Solve ops lyt cfg n d e z zld work) =
      SytEigQR_Solve ops cfg n d e := by
  rw [SytEigVecQR_Solve, SytEigQR_Solve]
  split_ifs
  · rfl
  · exact SytEig_outer_agree ops lyt cfg n zld (n+1) 0 0 d e z work


end LAPACKSample
